import Mathlib

/-!
# Scribus document model and page-object operations

A shallow embedding of `scribus.go`: the `ScribusDocument` record tree, the
slice-backed storage of text runs, the four page-object operations
(`DuplicatePageObject`, `ChangeTextOfPageObject`, `MovePageObject`,
`ChangePictureOfPageObject`), `NewScribusDocumentFromFile` and
`WriteScribusFile`, followed by the properties proved about them.
-/

namespace Scribus

/-! ## Data model

Every Go `string` field is a Lean `String`.  Anonymous Go struct types are
named after the field that declares them (prefixed by the enclosing field
where the same field name occurs more than once).  The structures on the path
to the text runs take the representation `R` of the `ITEXT` field as a
parameter: in memory it is a slice header (`Slice`), in the value view it is
the list of runs the header denotes. -/

/-- The Go type `xml.Name`. -/
structure xml.Name where
  Space : String
  Local : String
  deriving DecidableEq, Inhabited

section Model

-- The records are wide (`DOCUMENT` has 190 fields); the injectivity and
-- `sizeOf` lemmas of their constructors are not used and not generated.
set_option linter.dupNamespace false
set_option genInjectivity false
set_option genSizeOfSpec false

structure CheckProfile where
  Text : String
  Name : String
  IgnoreErrors : String
  AutoCheck : String
  CheckGlyphs : String
  CheckOrphans : String
  CheckOverflow : String
  CheckPictures : String
  CheckPartFilledImageFrames : String
  CheckResolution : String
  CheckTransparency : String
  MinResolution : String
  MaxResolution : String
  CheckAnnotations : String
  CheckRasterPDF : String
  CheckForGIF : String
  IgnoreOffLayers : String
  CheckNotCMYKOrSpot : String
  CheckDeviceColorsAndOutputIntent : String
  CheckFontNotEmbedded : String
  CheckFontIsOpenType : String
  CheckAppliedMasterDifferentSide : String
  CheckEmptyTextFrames : String
  deriving Inhabited

structure COLOR where
  Text : String
  NAME : String
  CMYK : String
  Register : String
  deriving Inhabited

structure STYLE where
  Text : String
  NAME : String
  DefaultStyle : String
  ALIGN : String
  LINESPMode : String
  LINESP : String
  INDENT : String
  RMARGIN : String
  FIRST : String
  VOR : String
  NACH : String
  ParagraphEffectOffset : String
  DROP : String
  DROPLIN : String
  Bullet : String
  Numeration : String
  BCOLOR : String
  BSHADE : String
  deriving Inhabited

structure CHARSTYLE where
  Text : String
  CNAME : String
  DefaultStyle : String
  FONT : String
  FONTSIZE : String
  FEATURES : String
  FCOLOR : String
  FSHADE : String
  SCOLOR : String
  BGCOLOR : String
  BGSHADE : String
  SSHADE : String
  TXTSHX : String
  TXTSHY : String
  TXTOUT : String
  TXTULP : String
  TXTULW : String
  TXTSTP : String
  TXTSTW : String
  SCALEH : String
  SCALEV : String
  BASEO : String
  KERN : String
  LANGUAGE : String
  deriving Inhabited

structure TableStyle_TableBorderLeft_TableBorderLine where
  Text : String
  Width : String
  PenStyle : String
  Color : String
  Shade : String
  deriving Inhabited

structure TableStyle_TableBorderLeft where
  Text : String
  TableBorderLine : TableStyle_TableBorderLeft_TableBorderLine
  deriving Inhabited

structure TableStyle_TableBorderRight_TableBorderLine where
  Text : String
  Width : String
  PenStyle : String
  Color : String
  Shade : String
  deriving Inhabited

structure TableStyle_TableBorderRight where
  Text : String
  TableBorderLine : TableStyle_TableBorderRight_TableBorderLine
  deriving Inhabited

structure TableStyle_TableBorderTop_TableBorderLine where
  Text : String
  Width : String
  PenStyle : String
  Color : String
  Shade : String
  deriving Inhabited

structure TableStyle_TableBorderTop where
  Text : String
  TableBorderLine : TableStyle_TableBorderTop_TableBorderLine
  deriving Inhabited

structure TableStyle_TableBorderBottom_TableBorderLine where
  Text : String
  Width : String
  PenStyle : String
  Color : String
  Shade : String
  deriving Inhabited

structure TableStyle_TableBorderBottom where
  Text : String
  TableBorderLine : TableStyle_TableBorderBottom_TableBorderLine
  deriving Inhabited

structure TableStyle where
  Text : String
  NAME : String
  DefaultStyle : String
  FillColor : String
  FillShade : String
  TableBorderLeft : TableStyle_TableBorderLeft
  TableBorderRight : TableStyle_TableBorderRight
  TableBorderTop : TableStyle_TableBorderTop
  TableBorderBottom : TableStyle_TableBorderBottom
  deriving Inhabited

structure CellStyle_TableBorderLeft_TableBorderLine where
  Text : String
  Width : String
  PenStyle : String
  Color : String
  Shade : String
  deriving Inhabited

structure CellStyle_TableBorderLeft where
  Text : String
  TableBorderLine : CellStyle_TableBorderLeft_TableBorderLine
  deriving Inhabited

structure CellStyle_TableBorderRight_TableBorderLine where
  Text : String
  Width : String
  PenStyle : String
  Color : String
  Shade : String
  deriving Inhabited

structure CellStyle_TableBorderRight where
  Text : String
  TableBorderLine : CellStyle_TableBorderRight_TableBorderLine
  deriving Inhabited

structure CellStyle_TableBorderTop_TableBorderLine where
  Text : String
  Width : String
  PenStyle : String
  Color : String
  Shade : String
  deriving Inhabited

structure CellStyle_TableBorderTop where
  Text : String
  TableBorderLine : CellStyle_TableBorderTop_TableBorderLine
  deriving Inhabited

structure CellStyle_TableBorderBottom_TableBorderLine where
  Text : String
  Width : String
  PenStyle : String
  Color : String
  Shade : String
  deriving Inhabited

structure CellStyle_TableBorderBottom where
  Text : String
  TableBorderLine : CellStyle_TableBorderBottom_TableBorderLine
  deriving Inhabited

structure CellStyle where
  Text : String
  NAME : String
  DefaultStyle : String
  FillColor : String
  FillShade : String
  LeftPadding : String
  RightPadding : String
  TopPadding : String
  BottomPadding : String
  TableBorderLeft : CellStyle_TableBorderLeft
  TableBorderRight : CellStyle_TableBorderRight
  TableBorderTop : CellStyle_TableBorderTop
  TableBorderBottom : CellStyle_TableBorderBottom
  deriving Inhabited

structure LAYERS where
  Text : String
  NUMMER : String
  LEVEL : String
  NAME : String
  SICHTBAR : String
  DRUCKEN : String
  EDIT : String
  SELECT : String
  FLOW : String
  TRANS : String
  BLEND : String
  OUTL : String
  LAYERC : String
  deriving Inhabited

structure Printer where
  Text : String
  FirstUse : String
  ToFile : String
  UseAltPrintCommand : String
  OutputSeparations : String
  UseSpotColors : String
  UseColor : String
  MirrorH : String
  MirrorV : String
  UseICC : String
  DoGCR : String
  DoClip : String
  SetDevParam : String
  UseDocBleeds : String
  CropMarks : String
  BleedMarks : String
  RegistrationMarks : String
  ColorMarks : String
  IncludePDFMarks : String
  PSLevel : String
  PDLanguage : String
  MarkLength : String
  MarkOffset : String
  BleedTop : String
  BleedLeft : String
  BleedRight : String
  BleedBottom : String
  Printer : String
  Filename : String
  SeparationName : String
  PrinterCommand : String
  deriving Inhabited

structure LPI where
  Text : String
  Color : String
  Frequency : String
  Angle : String
  SpotFunction : String
  deriving Inhabited

structure PDF where
  Text : String
  FirstUse : String
  Thumbnails : String
  Articles : String
  Bookmarks : String
  Compress : String
  CMethod : String
  Quality : String
  EmbedPDF : String
  MirrorH : String
  MirrorV : String
  Clip : String
  RangeSel : String
  RangeTxt : String
  RotateDeg : String
  PresentMode : String
  RecalcPic : String
  FontEmbedding : String
  Grayscale : String
  RGBMode : String
  UseProfiles : String
  UseProfiles2 : String
  Binding : String
  PicRes : String
  Resolution : String
  Version : String
  Intent : String
  Intent2 : String
  SolidP : String
  ImageP : String
  PrintP : String
  InfoString : String
  BTop : String
  BLeft : String
  BRight : String
  BBottom : String
  UseDocBleeds : String
  CropMarks : String
  BleedMarks : String
  RegistrationMarks : String
  ColorMarks : String
  DocInfoMarks : String
  MarkLength : String
  MarkOffset : String
  ImagePr : String
  PassOwner : String
  PassUser : String
  Permissions : String
  Encrypt : String
  UseLayers : String
  UseLpi : String
  UseSpotColors : String
  DoMultiFile : String
  DisplayBookmarks : String
  DisplayFullscreen : String
  DisplayLayers : String
  DisplayThumbs : String
  HideMenuBar : String
  HideToolBar : String
  FitWindow : String
  OpenAfterExport : String
  PageLayout : String
  OpenAction : String
  LPI : List LPI
  deriving Inhabited

structure NotesStyle where
  Text : String
  Name : String
  Start : String
  Endnotes : String
  «Type» : String
  Range : String
  Prefix : String
  Suffix : String
  AutoHeight : String
  AutoWidth : String
  AutoRemove : String
  AutoWeld : String
  SuperNote : String
  SuperMaster : String
  MarksStyle : String
  NotesStyle : String
  deriving Inhabited

structure NotesStyles where
  Text : String
  NotesStyle : NotesStyle
  deriving Inhabited

structure PageNames where
  Text : String
  Name : String
  deriving Inhabited

structure PageSets_Set where
  Text : String
  Name : String
  FirstPage : String
  Rows : String
  Columns : String
  PageNames : List PageNames
  deriving Inhabited

structure PageSets where
  Text : String
  Set : List PageSets_Set
  deriving Inhabited

structure Section where
  Text : String
  Number : String
  Name : String
  From : String
  To : String
  «Type» : String
  Start : String
  Reversed : String
  Active : String
  FillChar : String
  FieldWidth : String
  deriving Inhabited

structure Sections where
  Text : String
  Section : Section
  deriving Inhabited

structure MASTERPAGE where
  Text : String
  PAGEXPOS : String
  PAGEYPOS : String
  PAGEWIDTH : String
  PAGEHEIGHT : String
  BORDERLEFT : String
  BORDERRIGHT : String
  BORDERTOP : String
  BORDERBOTTOM : String
  NUM : String
  NAM : String
  MNAM : String
  Size : String
  Orientation : String
  LEFT : String
  PRESET : String
  VerticalGuides : String
  HorizontalGuides : String
  AGhorizontalAutoGap : String
  AGverticalAutoGap : String
  AGhorizontalAutoCount : String
  AGverticalAutoCount : String
  AGhorizontalAutoRefer : String
  AGverticalAutoRefer : String
  AGSelection : String
  PageEffectDuration : String
  PageViewDuration : String
  EffectType : String
  Dm : String
  M : String
  Di : String
  deriving Inhabited

structure PAGE where
  Text : String
  PAGEXPOS : String
  PAGEYPOS : String
  PAGEWIDTH : String
  PAGEHEIGHT : String
  BORDERLEFT : String
  BORDERRIGHT : String
  BORDERTOP : String
  BORDERBOTTOM : String
  NUM : String
  NAM : String
  MNAM : String
  Size : String
  Orientation : String
  LEFT : String
  PRESET : String
  VerticalGuides : String
  HorizontalGuides : String
  AGhorizontalAutoGap : String
  AGverticalAutoGap : String
  AGhorizontalAutoCount : String
  AGverticalAutoCount : String
  AGhorizontalAutoRefer : String
  AGverticalAutoRefer : String
  AGSelection : String
  PageEffectDuration : String
  PageViewDuration : String
  EffectType : String
  Dm : String
  M : String
  Di : String
  deriving Inhabited

structure DefaultStyle where
  Text : String
  PARENT : String
  CPARENT : String
  deriving DecidableEq, Inhabited

structure ITEXT where
  Text : String
  CPARENT : String
  CH : String
  deriving DecidableEq, Inhabited

structure Para where
  Text : String
  ParagraphEffectOffset : String
  ParagraphEffectIndent : String
  DROP : String
  Bullet : String
  BulletStr : String
  Numeration : String
  deriving DecidableEq, Inhabited

structure StoryText (R : Type) where
  Text : String
  DefaultStyle : DefaultStyle
  ITEXT : R
  Para : List Para
  Trail : String
  deriving DecidableEq, Inhabited

structure PAGEOBJECT (R : Type) where
  Text : String
  XPOS : String
  YPOS : String
  OwnPage : String
  ItemID : String
  PTYPE : String
  WIDTH : String
  HEIGHT : String
  FRTYPE : String
  CLIPEDIT : String
  PWIDTH : String
  PLINEART : String
  LOCALSCX : String
  LOCALSCY : String
  LOCALX : String
  LOCALY : String
  LOCALROT : String
  PICART : String
  SCALETYPE : String
  RATIO : String
  Pagenumber : String
  PFILE : String
  IRENDER : String
  EMBEDDED : String
  Path : String
  Copath : String
  GXpos : String
  GYpos : String
  GWidth : String
  GHeight : String
  LAYER : String
  NEXTITEM : String
  BACKITEM : String
  PRFILE : String
  COLUMNS : String
  COLGAP : String
  AUTOTEXT : String
  EXTRA : String
  TEXTRA : String
  BEXTRA : String
  REXTRA : String
  VAlign : String
  FLOP : String
  PLTSHOW : String
  BASEOF : String
  TextPathType : String
  TextPathFlipped : String
  PSTYLE : String
  StoryText : (StoryText R)
  deriving DecidableEq, Inhabited

structure DOCUMENT (R : Type) where
  Text : String
  ANZPAGES : String
  PAGEWIDTH : String
  PAGEHEIGHT : String
  BORDERLEFT : String
  BORDERRIGHT : String
  BORDERTOP : String
  BORDERBOTTOM : String
  PRESET : String
  BleedTop : String
  BleedLeft : String
  BleedRight : String
  BleedBottom : String
  ORIENTATION : String
  PAGESIZE : String
  FIRSTNUM : String
  BOOK : String
  AUTOSPALTEN : String
  ABSTSPALTEN : String
  UNITS : String
  DFONT : String
  DSIZE : String
  DCOL : String
  DGAP : String
  TabFill : String
  TabWidth : String
  AUTHOR : String
  COMMENTS : String
  KEYWORDS : String
  PUBLISHER : String
  DOCDATE : String
  DOCTYPE : String
  DOCFORMAT : String
  DOCIDENT : String
  DOCSOURCE : String
  DOCLANGINFO : String
  DOCRELATION : String
  DOCCOVER : String
  DOCRIGHTS : String
  DOCCONTRIB : String
  TITLE : String
  SUBJECT : String
  VHOCH : String
  VHOCHSC : String
  VTIEF : String
  VTIEFSC : String
  VKAPIT : String
  BASEGRID : String
  BASEO : String
  AUTOL : String
  UnderlinePos : String
  UnderlineWidth : String
  StrikeThruPos : String
  StrikeThruWidth : String
  GROUPC : String
  HCMS : String
  DPSo : String
  DPSFo : String
  DPuse : String
  DPgam : String
  DPbla : String
  DPPr : String
  DPIn : String
  DPInCMYK : String
  DPIn2 : String
  DPIn3 : String
  DISc : String
  DIIm : String
  ALAYER : String
  LANGUAGE : String
  MINWORDLEN : String
  HYCOUNT : String
  AUTOMATIC : String
  AUTOCHECK : String
  GUIDELOCK : String
  SnapToGuides : String
  SnapToGrid : String
  SnapToElement : String
  MINGRID : String
  MAJGRID : String
  SHOWGRID : String
  SHOWGUIDES : String
  Showcolborders : String
  PreviewMode : String
  SHOWFRAME : String
  SHOWControl : String
  SHOWLAYERM : String
  SHOWMARGIN : String
  SHOWBASE : String
  SHOWPICT : String
  SHOWLINK : String
  RulerMode : String
  Showrulers : String
  ShowBleed : String
  RulerXoffset : String
  RulerYoffset : String
  GuideRad : String
  GRAB : String
  POLYC : String
  POLYF : String
  POLYR : String
  POLYIR : String
  POLYCUR : String
  POLYOCUR : String
  POLYS : String
  ArcStartAngle : String
  ArcSweepAngle : String
  SpiralStartAngle : String
  SpiralEndAngle : String
  SpiralFactor : String
  AutoSave : String
  AutoSaveTime : String
  ScratchBottom : String
  ScratchLeft : String
  ScratchRight : String
  ScratchTop : String
  GapHorizontal : String
  GapVertical : String
  StartArrow : String
  EndArrow : String
  PEN : String
  BRUSH : String
  PENLINE : String
  PENTEXT : String
  StrokeText : String
  TextBackGround : String
  TextLineColor : String
  TextBackGroundShade : String
  TextLineShade : String
  TextPenShade : String
  TextStrokeShade : String
  STIL : String
  STILLINE : String
  WIDTH : String
  WIDTHLINE : String
  PENSHADE : String
  LINESHADE : String
  BRUSHSHADE : String
  CPICT : String
  PICTSHADE : String
  CSPICT : String
  PICTSSHADE : String
  PICTSCX : String
  PICTSCY : String
  PSCALE : String
  PASPECT : String
  EmbeddedPath : String
  HalfRes : String
  DispX : String
  DispY : String
  Constrain : String
  MINORC : String
  MAJORC : String
  GuideC : String
  BaseC : String
  RenderStack : String
  GridType : String
  PAGEC : String
  MARGC : String
  RANDF : String
  CurrentProfile : String
  CalligraphicPenFillColor : String
  CalligraphicPenLineColor : String
  CalligraphicPenFillColorShade : String
  CalligraphicPenLineColorShade : String
  CalligraphicPenLineWidth : String
  CalligraphicPenAngle : String
  CalligraphicPenWidth : String
  CalligraphicPenStyle : String
  CheckProfile : List CheckProfile
  COLOR : List COLOR
  HYPHEN : String
  STYLE : STYLE
  CHARSTYLE : CHARSTYLE
  TableStyle : TableStyle
  CellStyle : CellStyle
  LAYERS : LAYERS
  Printer : Printer
  PDF : PDF
  DocItemAttributes : String
  TablesOfContents : String
  NotesStyles : NotesStyles
  NotesFrames : String
  PageSets : PageSets
  Sections : Sections
  MASTERPAGE : MASTERPAGE
  PAGE : PAGE
  PAGEOBJECT : List (PAGEOBJECT R)
  deriving Inhabited

structure ScribusDocument (R : Type) where
  XMLName : xml.Name
  Text : String
  Version : String
  DOCUMENT : (DOCUMENT R)
  deriving Inhabited
end Model

/-! ## Slices of text runs

`StoryText.ITEXT` is a Go slice: a header pointing into a backing array.
Copying a `PAGEOBJECT` value copies the header, not the array, so the memory
holding the runs is part of the state.  The other slice-typed fields are
never written through by any operation of the package and are kept as lists;
`DOCUMENT.PAGEOBJECT` is only ever reached through the one document the
method receiver points to, so it is a list as well. -/

/-- A Go slice header over text-run cells: address of its first cell, length
and capacity. -/
structure Slice where
  base : Nat
  len : Nat
  cap : Nat
  deriving DecidableEq, Inhabited

/-- The memory of text-run cells, one `ITEXT` value per address. -/
abbrev Heap := Nat → ITEXT

/-- The runs a slice header denotes in a given memory. -/
def Slice.runs (h : Heap) (s : Slice) : List ITEXT :=
  (List.range s.len).map (fun k => h (s.base + k))

/-- The cell addresses visible through a slice header. -/
def Slice.covers (s : Slice) (a : Nat) : Prop := s.base ≤ a ∧ a < s.base + s.len

instance (s : Slice) (a : Nat) : Decidable (s.covers a) := by
  unfold Slice.covers; infer_instance

/-- Apply `f` to the representation of the text runs. -/
def StoryText.map {R S : Type} (f : R → S) (s : StoryText R) : StoryText S :=
  { s with ITEXT := f s.ITEXT }

/-- Apply `f` to the representation of the text runs of a page object. -/
def PAGEOBJECT.map {R S : Type} (f : R → S) (p : PAGEOBJECT R) : PAGEOBJECT S :=
  { p with StoryText := p.StoryText.map f }

/-- Apply `f` to the representation of the text runs of every page object. -/
def DOCUMENT.map {R S : Type} (f : R → S) (d : DOCUMENT R) : DOCUMENT S :=
  { d with PAGEOBJECT := d.PAGEOBJECT.map (PAGEOBJECT.map f) }

/-- Apply `f` to the representation of the text runs throughout a document. -/
def ScribusDocument.map {R S : Type} (f : R → S) (d : ScribusDocument R) :
    ScribusDocument S :=
  { d with DOCUMENT := d.DOCUMENT.map f }

/-- A page object as a value: its attributes and the runs its story holds. -/
abbrev PageObjectValue := PAGEOBJECT (List ITEXT)

/-- A document as a value (what `reflect.DeepEqual` compares). -/
abbrev DocumentValue := ScribusDocument (List ITEXT)

/-- The program state a method with receiver `*ScribusDocument` works on: the
document structure and the memory its text-run slices point into. -/
structure State where
  doc : ScribusDocument Slice
  heap : Heap

/-- The page-object sequence `scribusDocument.DOCUMENT.PAGEOBJECT`. -/
def State.pageObjects (st : State) : List (PAGEOBJECT Slice) :=
  st.doc.DOCUMENT.PAGEOBJECT

/-- Assign to `scribusDocument.DOCUMENT.PAGEOBJECT`. -/
def State.setPageObjects (st : State) (s : List (PAGEOBJECT Slice)) : State :=
  { st with doc := { st.doc with DOCUMENT := { st.doc.DOCUMENT with PAGEOBJECT := s } } }

/-- The value of a page object in a given memory. -/
def PAGEOBJECT.value (h : Heap) (p : PAGEOBJECT Slice) : PageObjectValue :=
  p.map (Slice.runs h)

/-- The value of the whole document. -/
def State.value (st : State) : DocumentValue :=
  st.doc.map (Slice.runs st.heap)

/-- The values of the page objects, in sequence order. -/
def State.objects (st : State) : List PageObjectValue :=
  st.pageObjects.map (PAGEOBJECT.value st.heap)

/-! ## Outcomes -/

/-- How a call ends: with a run-time panic (index out of range) or by
returning. -/
inductive Outcome (α : Type) where
  | fault : Outcome α
  | ret : α → Outcome α

/-- A Go `error` value: `nil` or an error carrying a message. -/
abbrev GoError := Option String

/-! ## Go built-ins used by the operations -/

/-- An index expression `s[i]` with a Go `int` index: `none` is the
index-out-of-range panic. -/
def goIndex {α : Type} (s : List α) (i : Int) : Option α :=
  if 0 ≤ i then s[i.toNat]? else none

/-- The built-in `copy(s[a:], s[b:])` on two windows of one slice `s`: it
copies `min (len s - a) (len s - b)` elements and behaves as if the source
were read completely before the destination is written. -/
def copyWithin {α : Type} (s : List α) (a b : Nat) : List α :=
  let src := s.drop b
  let n := min (s.length - a) src.length
  s.take a ++ src.take n ++ s.drop (a + n)

/-- The function `strconv.Itoa`: the decimal representation of an integer,
with a leading minus sign for negative values. -/
def Itoa (x : Int) : String :=
  match x with
  | Int.ofNat n => Nat.repr n
  | Int.negSucc n => "-" ++ Nat.repr (n + 1)

/-! ## The page-object operations -/

/-- The method `DuplicatePageObject(i)`. -/
def DuplicatePageObject (st : State) (i : Int) : Outcome (State × GoError) :=
  let s := st.pageObjects
  -- append(PAGEOBJECT, PAGEOBJECT[i])
  match goIndex s i with
  | none => Outcome.fault
  | some x =>
    let s1 := s ++ [x]
    let n := i.toNat
    -- copy(PAGEOBJECT[i+1:], PAGEOBJECT[i:])
    if n + 1 ≤ s1.length then
      let s2 := copyWithin s1 (n + 1) n
      -- PAGEOBJECT[i+1] = PAGEOBJECT[i]
      match goIndex s2 i, decide (n + 1 < s2.length) with
      | some y, true => Outcome.ret (st.setPageObjects (s2.set (n + 1) y), none)
      | _, _ => Outcome.fault
    else Outcome.fault

/-- The method `ChangeTextOfPageObject(i, text)`. -/
def ChangeTextOfPageObject (st : State) (i : Int) (text : String) :
    Outcome (State × GoError) :=
  match goIndex st.pageObjects i with
  | none => Outcome.fault
  | some p =>
    if p.PTYPE ≠ "1" then
      Outcome.ret (st, some "Is not a text frame (assuming that a text frame is PTYPE 1)")
    else
      -- PAGEOBJECT[i].StoryText.ITEXT[0].CH = text
      let runs := p.StoryText.ITEXT
      if 0 < runs.len then
        Outcome.ret
          ({ st with heap := Function.update st.heap runs.base
                      { st.heap runs.base with CH := text } }, none)
      else Outcome.fault

/-- The method `MovePageObject(i, xpos, ypos)`. -/
def MovePageObject (st : State) (i : Int) (xpos ypos : Int) : Outcome State :=
  -- PAGEOBJECT[i].XPOS = strconv.Itoa(xpos)
  match goIndex st.pageObjects i with
  | none => Outcome.fault
  | some p =>
    let st1 := st.setPageObjects (st.pageObjects.set i.toNat { p with XPOS := Itoa xpos })
    -- PAGEOBJECT[i].YPOS = strconv.Itoa(ypos)
    match goIndex st1.pageObjects i with
    | none => Outcome.fault
    | some q =>
      Outcome.ret
        (st1.setPageObjects (st1.pageObjects.set i.toNat { q with YPOS := Itoa ypos }))

/-- The method `ChangePictureOfPageObject(i, path)`. -/
def ChangePictureOfPageObject (st : State) (i : Int) (path : String) :
    Outcome (State × GoError) :=
  match goIndex st.pageObjects i with
  | none => Outcome.fault
  | some p =>
    if p.PTYPE ≠ "2" then
      Outcome.ret (st, some "Is not a picture frame (assuming that a picture frame is PTYPE 2)")
    else
      Outcome.ret
        (st.setPageObjects (st.pageObjects.set i.toNat { p with PFILE := path }), none)

/-! ## Writing a document: the text that reaches the file

`WriteScribusFile` marshals the document with `xml.MarshalIndent`, deletes
the newline escape from the marshalled text and puts `xml.Header` in front.
The marshaller and the parser are the Go library `encoding/xml`; the part of
them that decides what happens to a field value is how a value is escaped
when written (`EscapeString`, `EscapeText`) and how the text of an attribute
or of an element is read (`Decoder.text`). -/

/-- The constant `xml.Header`. -/
def xmlHeader : List Char :=
  "<?xml version=".data ++ [Char.ofNat 34] ++ "1.0".data ++ [Char.ofNat 34] ++
  " encoding=".data ++ [Char.ofNat 34] ++ "UTF-8".data ++ [Char.ofNat 34] ++
  "?>".data ++ [Char.ofNat 10]

/-- The text `&#xA;`, the escape `encoding/xml` writes for a newline. -/
def escNL : List Char := ['&', '#', 'x', 'A', ';']

/-- The loop of `strings.Replace(s, old, new, -1)` for a non-empty `old`:
scan from the left, at each occurrence of `old` emit `new` and continue
behind the occurrence, otherwise copy one character.  The first argument
bounds the number of steps; `s.length` steps always suffice. -/
def replaceLoop (old new : List Char) : Nat → List Char → List Char
  | 0, s => s
  | _ + 1, [] => []
  | n + 1, c :: cs =>
    if old.isPrefixOf (c :: cs) then new ++ replaceLoop old new n ((c :: cs).drop old.length)
    else c :: replaceLoop old new n cs

/-- The call `strings.Replace(s, old, new, -1)` for a non-empty `old`. -/
def Replace (s old new : List Char) : List Char :=
  replaceLoop old new s.length s

/-- The post-processing of the marshalled text in `WriteScribusFile`:
`strings.Replace(string(xmlstring), "&#xA;", "", -1)`. -/
def stripNewlineEscapes (xmlstring : List Char) : List Char :=
  Replace xmlstring escNL []

/-- The bytes `WriteScribusFile` hands to `ioutil.WriteFile` when marshalling
gave `xmlstring`. -/
def WriteScribusFile.bytes (xmlstring : List Char) : List Char :=
  xmlHeader ++ stripNewlineEscapes xmlstring

/-- The character range of XML 1.0 that `encoding/xml` accepts
(`isInCharacterRange`). -/
def isInCharacterRange (c : Char) : Bool :=
  c.toNat = 0x09 || c.toNat = 0x0A || c.toNat = 0x0D ||
  (0x20 ≤ c.toNat && c.toNat ≤ 0xD7FF) ||
  (0xE000 ≤ c.toNat && c.toNat ≤ 0xFFFD) ||
  (0x10000 ≤ c.toNat && c.toNat ≤ 0x10FFFF)

/-- How `encoding/xml` writes one character of an attribute value or of
character data (the switch in `EscapeString` / `escapeText`). -/
def escapeChar (c : Char) : List Char :=
  if c = Char.ofNat 34 then ['&', '#', '3', '4', ';']
  else if c = Char.ofNat 39 then ['&', '#', '3', '9', ';']
  else if c = '&' then ['&', 'a', 'm', 'p', ';']
  else if c = '<' then ['&', 'l', 't', ';']
  else if c = '>' then ['&', 'g', 't', ';']
  else if c = Char.ofNat 9 then ['&', '#', 'x', '9', ';']
  else if c = Char.ofNat 10 then escNL
  else if c = Char.ofNat 13 then ['&', '#', 'x', 'D', ';']
  else if isInCharacterRange c then [c]
  else [Char.ofNat 0xFFFD]

/-- The escaped form of a field value as the marshaller writes it. -/
def escapeText : List Char → List Char
  | [] => []
  | c :: cs => escapeChar c ++ escapeText cs

/-- Whether `encoding/xml` reads on in an entity name at this character
(`isNameByte`, or a byte of a multi-byte character). -/
def isNameByte (c : Char) : Bool :=
  ('A' ≤ c && c ≤ 'Z') || ('a' ≤ c && c ≤ 'z') || ('0' ≤ c && c ≤ '9') ||
  c = '_' || c = ':' || c = '.' || c = '-' || 0x80 ≤ c.toNat

/-- The value of `c` as a digit of the given base (10 or 16), if it is one:
the digits the decoder accepts in a character reference. -/
def digitOf (base : Nat) (c : Char) : Option Nat :=
  if '0' ≤ c ∧ c ≤ '9' then some (c.toNat - '0'.toNat)
  else if base = 16 ∧ 'a' ≤ c ∧ c ≤ 'f' then some (c.toNat - 'a'.toNat + 10)
  else if base = 16 ∧ 'A' ≤ c ∧ c ≤ 'F' then some (c.toNat - 'A'.toNat + 10)
  else none

/-- The predefined entities of `encoding/xml`. -/
def entityOf (name : List Char) : Option Char :=
  if name = ['l', 't'] then some '<'
  else if name = ['g', 't'] then some '>'
  else if name = ['a', 'm', 'p'] then some '&'
  else if name = ['a', 'p', 'o', 's'] then some (Char.ofNat 39)
  else if name = ['q', 'u', 'o', 't'] then some (Char.ofNat 34)
  else none

/-- The Go conversion `string(rune(n))` for `n ≤ unicode.MaxRune`: a
surrogate code point becomes U+FFFD. -/
def runeText (n : Nat) : Char :=
  if 0xD800 ≤ n ∧ n ≤ 0xDFFF then Char.ofNat 0xFFFD else Char.ofNat n

/-- Where `Decoder.text` is in its input: in ordinary text (with the last two
characters read there, for the `]]>` and CR LF rules), behind an `&`, behind
`&#`, in the digits of a character reference (base, value so far, whether a
digit was read), or in an entity name (characters read, newest first). -/
inductive TextState where
  | plain (b0 b1 : Char)
  | amp
  | hash
  | digits (base n : Nat) (seen : Bool)
  | name (acc : List Char)

/-- The end of `Decoder.text`: every character of the text read must be in
the XML character range. -/
def finishText (out rest : List Char) : Except String (List Char × List Char) :=
  if out.reverse.all isInCharacterRange then Except.ok (out.reverse, rest)
  else Except.error "illegal character code"

/-- The method `Decoder.text(quote, false)` of `encoding/xml` in strict mode,
which reads the value of an attribute (`quote` is the quote character, which
ends the text and is consumed) and the text between tags (`quote` is `none`;
a `<` ends the text and stays in the input).  The second argument is the
text read so far, newest character first.  The result is the text and the
rest of the input, or a syntax error. -/
def decodeAux (quote : Option Char) :
    TextState → List Char → List Char → Except String (List Char × List Char)
  | TextState.plain _ _, out, [] => finishText out []
  | _, _, [] => Except.error "unexpected EOF"
  | TextState.plain b0 b1, out, b :: rest =>
    if b0 = ']' ∧ b1 = ']' ∧ b = '>' then
      Except.error "unescaped ]]> not in CDATA section"
    else if b = '<' then
      if quote.isSome then Except.error "unescaped < inside quoted string"
      else finishText out (b :: rest)
    else if quote = some b then finishText out rest
    else if b = '&' then decodeAux quote TextState.amp out rest
    else if b = Char.ofNat 13 then
      decodeAux quote (TextState.plain b1 b) (Char.ofNat 10 :: out) rest
    else if b1 = Char.ofNat 13 ∧ b = Char.ofNat 10 then
      decodeAux quote (TextState.plain b1 b) out rest
    else decodeAux quote (TextState.plain b1 b) (b :: out) rest
  | TextState.amp, out, b :: rest =>
    if b = '#' then decodeAux quote TextState.hash out rest
    else if isNameByte b then decodeAux quote (TextState.name [b]) out rest
    else Except.error "invalid character entity"
  | TextState.hash, out, b :: rest =>
    if b = 'x' then decodeAux quote (TextState.digits 16 0 false) out rest
    else
      match digitOf 10 b with
      | some d => decodeAux quote (TextState.digits 10 d true) out rest
      | none => Except.error "invalid character entity"
  | TextState.digits base n seen, out, b :: rest =>
    match digitOf base b with
    | some d => decodeAux quote (TextState.digits base (n * base + d) true) out rest
    | none =>
      if b = ';' ∧ seen = true ∧ n ≤ 0x10FFFF then
        decodeAux quote (TextState.plain (Char.ofNat 0) (Char.ofNat 0)) (runeText n :: out) rest
      else Except.error "invalid character entity"
  | TextState.name acc, out, b :: rest =>
    if isNameByte b then decodeAux quote (TextState.name (b :: acc)) out rest
    else if b = ';' then
      match entityOf acc.reverse with
      | some c =>
        decodeAux quote (TextState.plain (Char.ofNat 0) (Char.ofNat 0)) (c :: out) rest
      | none => Except.error "invalid character entity"
    else Except.error "invalid character entity"

/-- The call `d.text(quote, false)` at the start of a text. -/
def decodeText (quote : Option Char) (input : List Char) :
    Except String (List Char × List Char) :=
  decodeAux quote (TextState.plain (Char.ofNat 0) (Char.ofNat 0)) [] input

/-- A value without its newline characters. -/
def dropNewlines (v : List Char) : List Char :=
  v.filter (fun c => c ≠ Char.ofNat 10)

/-- The two ways `xml.MarshalIndent` writes a string field: as a quoted
attribute of a start tag (the fields declared `,attr`), or as the whole text
of an element, between the `>` of its start tag and the `<` of its end tag
(a string-typed child element, and the `,chardata` field of an element
written without child elements). -/
inductive FieldForm where
  | attribute
  | elementText
  deriving DecidableEq

/-- The character written in front of the field's text. -/
def FieldForm.opening : FieldForm → Char
  | FieldForm.attribute => Char.ofNat 34
  | FieldForm.elementText => '>'

/-- The character written behind the field's text. -/
def FieldForm.closing : FieldForm → Char
  | FieldForm.attribute => Char.ofNat 34
  | FieldForm.elementText => '<'

/-- The `quote` argument with which the decoder reads the field's text. -/
def FieldForm.quote : FieldForm → Option Char
  | FieldForm.attribute => some (Char.ofNat 34)
  | FieldForm.elementText => none

/-- The input left when the decoder has read the field's text: the closing
quote of an attribute is consumed, the `<` behind an element's text is not. -/
def FieldForm.leftover (k : FieldForm) (rest : List Char) : List Char :=
  match k with
  | FieldForm.attribute => rest
  | FieldForm.elementText => '<' :: rest

/-- The marshalled text of a document in which a field with value `v` is
written in form `k`, with `pre` in front of it and `suf` behind it. -/
def marshalledWith (k : FieldForm) (pre v suf : List Char) : List Char :=
  pre ++ k.opening :: (escapeText v ++ k.closing :: suf)

/-- The value the parser reads for a field, written in form `k` with value
`v` and followed by `suf`, from the bytes `WriteScribusFile` has written. -/
def readBack (k : FieldForm) (v suf : List Char) : Except String (List Char × List Char) :=
  decodeText k.quote (stripNewlineEscapes (escapeText v ++ k.closing :: suf))

/-- What the marshaller writes for a character that needs no escape: the
character itself, or U+FFFD when it is outside the XML character range. -/
def sanitizeChar (c : Char) : Char :=
  if isInCharacterRange c then c else Char.ofNat 0xFFFD

/-! ## Example documents -/

/-- A text frame whose runs are the cells `base .. base + len - 1`. -/
def textFrame (xpos ypos : String) (runs : Slice) : PAGEOBJECT Slice :=
  { (default : PAGEOBJECT Slice) with
    XPOS := xpos, YPOS := ypos, PTYPE := "1", ItemID := "7",
    StoryText := { (default : StoryText Slice) with ITEXT := runs } }

/-- A picture frame showing the file `pfile`. -/
def pictureFrame (xpos ypos pfile : String) : PAGEOBJECT Slice :=
  { (default : PAGEOBJECT Slice) with
    XPOS := xpos, YPOS := ypos, PTYPE := "2", ItemID := "8", PFILE := pfile }

/-- A memory with the run `Hello` in cell 0 and the run `again` in cell 1. -/
def exampleHeap : Heap := fun a =>
  if a = 0 then { Text := "", CPARENT := "Default Character Style", CH := "Hello" }
  else if a = 1 then { Text := "", CPARENT := "", CH := "again" }
  else default

/-- A document with two page objects: a text frame with the runs `Hello` and
`again`, and a picture frame. -/
def exampleState : State :=
  { doc := { (default : ScribusDocument Slice) with
      Version := "1.5.5",
      DOCUMENT := { (default : DOCUMENT Slice) with
        PAGEOBJECT := [textFrame "10" "20" ⟨0, 2, 2⟩, pictureFrame "30" "40" "a.png"] } },
    heap := exampleHeap }

/-- The state `exampleState` after `DuplicatePageObject(0)`: the text frame
occurs twice and both occurrences carry the same slice header. -/
def duplicatedState : State :=
  exampleState.setPageObjects
    [textFrame "10" "20" ⟨0, 2, 2⟩, textFrame "10" "20" ⟨0, 2, 2⟩,
     pictureFrame "30" "40" "a.png"]

/-- The `CH` of the first run of a page object, if it has a run. -/
def firstCH (v : PageObjectValue) : Option String :=
  v.StoryText.ITEXT.head?.map (fun r => r.CH)


/-! ## Loading and saving

`NewScribusDocumentFromFile` and `WriteScribusFile` call the operating system
(`os.Open`, `ioutil.ReadAll`, `ioutil.WriteFile`) and `encoding/xml`
(`xml.Unmarshal`, `xml.MarshalIndent`).  These are not part of the package;
the two functions take them as parameters and report, next to their result,
the calls they made in order. -/

/-- A call made to the operating system or to `encoding/xml`. -/
inductive Call where
  | osOpen (path : String)
  | readAll (file : Nat)
  | unmarshal (data : List Char)
  | close (file : Nat)
  | marshalIndent
  | writeFile (path : String) (data : List Char) (perm : Nat)
  deriving DecidableEq

/-- What `NewScribusDocumentFromFile` relies on: `os.Open` (a file handle or
an error), `ioutil.ReadAll` (the data read and an error or `nil`), and
`xml.Unmarshal(data, &v)` (the value `v` as the call leaves it and an error
or `nil`). -/
structure Loader where
  osOpen : String → Except String Nat
  readAll : Nat → List Char × GoError
  unmarshal : List Char → DocumentValue → DocumentValue × GoError

/-- The function `NewScribusDocumentFromFile(path)`: the pair it returns and
the calls it made. -/
def NewScribusDocumentFromFile (env : Loader) (path : String) :
    (DocumentValue × GoError) × List Call :=
  -- var scribusDocument ScribusDocument
  let scribusDocument : DocumentValue := default
  match env.osOpen path with
  | Except.error err => ((scribusDocument, some err), [Call.osOpen path])
  | Except.ok xmlFile =>
    -- byteValue, _ := ioutil.ReadAll(xmlFile)
    let byteValue := (env.readAll xmlFile).1
    -- err = xml.Unmarshal(byteValue, &scribusDocument)
    let r := env.unmarshal byteValue scribusDocument
    -- both remaining returns hand back the variable and `err`; the deferred
    -- Close runs on the way out
    ((r.1, r.2),
      [Call.osOpen path, Call.readAll xmlFile, Call.unmarshal byteValue, Call.close xmlFile])

/-- What `WriteScribusFile` relies on: `xml.MarshalIndent` (the marshalled
text or an error) and `ioutil.WriteFile`. -/
structure Saver where
  marshalIndent : DocumentValue → Except String (List Char)
  writeFile : String → List Char → Nat → GoError

/-- The method `WriteScribusFile(path)`: the error it returns and the calls
it made. -/
def WriteScribusFile (env : Saver) (scribusDocument : DocumentValue) (path : String) :
    GoError × List Call :=
  match env.marshalIndent scribusDocument with
  | Except.ok xmlstring =>
    let data := WriteScribusFile.bytes xmlstring
    (env.writeFile path data 0o644, [Call.marshalIndent, Call.writeFile path data 0o644])
  | Except.error err => (some err, [Call.marshalIndent])

/-! ## What the operations leave alone -/

/-- The identifier and link attributes of a page object: `ItemID`,
`NEXTITEM`, `BACKITEM`, `OwnPage`, `LAYER`. -/
def PAGEOBJECT.links {R : Type} (p : PAGEOBJECT R) :
    String × String × String × String × String :=
  (p.ItemID, p.NEXTITEM, p.BACKITEM, p.OwnPage, p.LAYER)

/-- A document with another page-object sequence in place of its own: the
version tag and every document-level field other than `PAGEOBJECT` are
those of `d`. -/
def ScribusDocument.withPageObjects {R : Type} (d : ScribusDocument R)
    (s : List (PAGEOBJECT R)) : ScribusDocument R :=
  { d with DOCUMENT := { d.DOCUMENT with PAGEOBJECT := s } }

/-! ## Further example documents and files -/

/-- A document with two page objects that have no text runs: one with
`PTYPE` `"1"` and one with `PTYPE` `"01"`. -/
def emptyFrameState : State :=
  exampleState.setPageObjects
    [textFrame "10" "20" ⟨0, 0, 0⟩,
     { textFrame "30" "40" ⟨0, 0, 0⟩ with PTYPE := "01" }]

/-- The text `<SCRIBUSUTF8NEW Version="1.5.5">`. -/
def rootStartTag : List Char :=
  "<SCRIBUSUTF8NEW Version=".data ++ [Char.ofNat 34] ++ "1.5.5".data ++ [Char.ofNat 34] ++
  ">".data

/-- A complete document: the root element with a version and no content. -/
def completeFile : List Char := rootStartTag ++ "</SCRIBUSUTF8NEW>".data

/-- The document that parsing the root start tag populates: the element
name and the version. -/
def versionOnly (d : DocumentValue) : DocumentValue :=
  { d with XMLName := { Space := "", Local := "SCRIBUSUTF8NEW" }, Version := "1.5.5" }

/-- A file system with three files and the results `xml.Unmarshal` gives on
their contents: `doc.sla` holds `completeFile`; `cut.sla` holds the root
start tag only, on which `xml.Unmarshal` assigns the attributes of the start
tag and then fails at the end of the input; `flaky.sla` holds `completeFile`
and its read delivers the whole content together with an error. -/
def exampleLoader : Loader where
  osOpen := fun path =>
    if path = "doc.sla" then Except.ok 3
    else if path = "cut.sla" then Except.ok 4
    else if path = "flaky.sla" then Except.ok 5
    else Except.error ("open " ++ path ++ ": no such file or directory")
  readAll := fun file =>
    if file = 3 then (completeFile, none)
    else if file = 4 then (rootStartTag, none)
    else if file = 5 then (completeFile, some "read flaky.sla: input/output error")
    else ([], some "bad file descriptor")
  unmarshal := fun data d =>
    if data = completeFile then (versionOnly d, none)
    else if data = rootStartTag then
      (versionOnly d, some "XML syntax error on line 1: unexpected EOF")
    else (d, some "EOF")

/-- A marshaller that writes the empty root element for every document, and
a file system on which every write succeeds. -/
def exampleSaver : Saver where
  marshalIndent := fun _ => Except.ok "<SCRIBUSUTF8NEW></SCRIBUSUTF8NEW>".data
  writeFile := fun _ _ _ => none

/-- A stand-in for `xml.MarshalIndent` that writes, for every document, one
`ITEXT` element whose `CH` attribute has the value `a`, newline, `b<c`; and
a file system on which every write succeeds. -/
def newlineSaver : Saver where
  marshalIndent := fun _ =>
    Except.ok (marshalledWith FieldForm.attribute "<ITEXT CH=".data
      ['a', Char.ofNat 10, 'b', '<', 'c'] "></ITEXT>".data)
  writeFile := fun _ _ _ => none

/-- A file system whose file `out.sla` holds what `WriteScribusFile` writes
with `newlineSaver`; the parser is a stand-in that assigns nothing. -/
def newlineLoader : Loader where
  osOpen := fun path =>
    if path = "out.sla" then Except.ok 7
    else Except.error ("open " ++ path ++ ": no such file or directory")
  readAll := fun _ =>
    (WriteScribusFile.bytes (marshalledWith FieldForm.attribute "<ITEXT CH=".data
      ['a', Char.ofNat 10, 'b', '<', 'c'] "></ITEXT>".data), none)
  unmarshal := fun _ d => (d, none)

/-! ## Basic facts about the built-ins -/

theorem goIndex_eq_some {α : Type} (s : List α) (i : Int) (h0 : 0 ≤ i)
    (hi : i < s.length) : ∃ x, goIndex s i = some x ∧ s[i.toNat]? = some x := by
  have hn : i.toNat < s.length := by omega
  exact ⟨s[i.toNat], by simp [goIndex, h0, List.getElem?_eq_getElem hn],
    List.getElem?_eq_getElem hn⟩

theorem goIndex_of_nonneg {α : Type} (s : List α) (i : Int) (h0 : 0 ≤ i) :
    goIndex s i = s[i.toNat]? := by
  simp [goIndex, h0]

theorem goIndex_of_neg {α : Type} (s : List α) (i : Int) (h0 : i < 0) :
    goIndex s i = none := by
  have : ¬ (0 ≤ i) := by omega
  simp [goIndex, this]

theorem goIndex_map {α β : Type} (f : α → β) (s : List α) (i : Int) :
    goIndex (s.map f) i = (goIndex s i).map f := by
  unfold goIndex
  split <;> simp

/-- Appending `s[n]` and shifting the tail one place to the right, as
`DuplicatePageObject` does, leaves `s[..n] ++ s[n..]`. -/
theorem copyWithin_append {α : Type} (s : List α) (n : Nat) (x : α)
    (hn : n < s.length) :
    copyWithin (s ++ [x]) (n + 1) n = s.take (n + 1) ++ s.drop n := by
  unfold copyWithin
  have h1 : min ((s ++ [x]).length - (n + 1)) (List.drop n (s ++ [x])).length
      = s.length - n := by
    simp; omega
  simp only [h1]
  have h2 : n + 1 + (s.length - n) = (s ++ [x]).length := by simp; omega
  rw [h2, List.drop_length, List.append_nil]
  rw [List.take_append_of_le_length (by omega), List.drop_append_of_le_length (by omega)]
  rw [List.take_append_of_le_length (by simp)]
  congr 1
  rw [List.take_of_length_le (by simp)]

theorem getElem?_take_drop {α : Type} (s : List α) (n k : Nat) (hn : n < s.length) :
    (s.take (n + 1) ++ s.drop n)[k]? = if k ≤ n then s[k]? else s[k - 1]? := by
  by_cases hk : k ≤ n
  · rw [if_pos hk, List.getElem?_append_left (by simp; omega), List.getElem?_take_of_lt (by omega)]
  · rw [if_neg hk, List.getElem?_append_right (by simp; omega), List.getElem?_drop]
    simp
    congr 1
    omega

/-! ## What the operations compute -/

@[simp] theorem pageObjects_setPageObjects (st : State) (s : List (PAGEOBJECT Slice)) :
    (st.setPageObjects s).pageObjects = s := rfl

@[simp] theorem heap_setPageObjects (st : State) (s : List (PAGEOBJECT Slice)) :
    (st.setPageObjects s).heap = st.heap := rfl

@[simp] theorem objects_setPageObjects (st : State) (s : List (PAGEOBJECT Slice)) :
    (st.setPageObjects s).objects = s.map (PAGEOBJECT.value st.heap) := rfl

theorem objects_length (st : State) : st.objects.length = st.pageObjects.length := by
  simp [State.objects]

/-- On a valid index the three statements of `DuplicatePageObject` store
`s[..i] ++ s[i..]` (the element at `i` occurring twice) and return `nil`. -/
theorem DuplicatePageObject_eq (st : State) (i : Int) (h0 : 0 ≤ i)
    (hi : i < st.pageObjects.length) :
    DuplicatePageObject st i = Outcome.ret
      (st.setPageObjects
        (st.pageObjects.take (i.toNat + 1) ++ st.pageObjects.drop i.toNat), none) := by
  obtain ⟨x, hx, hx'⟩ := goIndex_eq_some st.pageObjects i h0 hi
  have hn : i.toNat < st.pageObjects.length := by omega
  have hlen : (st.pageObjects.take (i.toNat + 1) ++ st.pageObjects.drop i.toNat).length
      = st.pageObjects.length + 1 := by
    simp; omega
  have hy : goIndex (st.pageObjects.take (i.toNat + 1) ++ st.pageObjects.drop i.toNat) i
      = some x := by
    rw [goIndex_of_nonneg _ _ h0, getElem?_take_drop _ _ _ hn, if_pos (le_refl _), hx']
  have hset : (st.pageObjects.take (i.toNat + 1) ++ st.pageObjects.drop i.toNat).set
      (i.toNat + 1) x = st.pageObjects.take (i.toNat + 1) ++ st.pageObjects.drop i.toNat := by
    apply List.ext_getElem?
    intro k
    rw [List.getElem?_set]
    split
    · next hk =>
      subst hk
      rw [if_pos (by omega), getElem?_take_drop _ _ _ hn, if_neg (by omega)]
      simp [hx']
    · rfl
  unfold DuplicatePageObject
  simp only [hx]
  rw [if_pos (by simp; omega), copyWithin_append _ _ _ hn, hy]
  have hd : decide (i.toNat + 1 <
      (st.pageObjects.take (i.toNat + 1) ++ st.pageObjects.drop i.toNat).length) = true := by
    rw [hlen]; simp; omega
  simp only [hd, hset]

/-- The values of the page objects after a duplication. -/
theorem DuplicatePageObject_objects (st : State) (i : Int) (h0 : 0 ≤ i)
    (hi : i < st.pageObjects.length) :
    ∃ st', DuplicatePageObject st i = Outcome.ret (st', none) ∧
      st'.heap = st.heap ∧
      st'.pageObjects = st.pageObjects.take (i.toNat + 1) ++ st.pageObjects.drop i.toNat ∧
      st'.objects = st.objects.take (i.toNat + 1) ++ st.objects.drop i.toNat := by
  refine ⟨_, DuplicatePageObject_eq st i h0 hi, rfl, rfl, ?_⟩
  simp [State.objects, List.map_take, List.map_drop]

theorem take_succ_append_drop {α : Type} (s : List α) (n : Nat) (x : α)
    (hx : s[n]? = some x) :
    s.take (n + 1) ++ s.drop n = s.take (n + 1) ++ x :: s.drop (n + 1) := by
  have hn : n < s.length := by
    rcases Nat.lt_or_ge n s.length with h | h
    · exact h
    · rw [List.getElem?_eq_none h] at hx; cases hx
  rw [List.getElem?_eq_getElem hn] at hx
  cases hx
  rw [List.drop_eq_getElem_cons hn]

/-- On a valid index `MovePageObject` overwrites `XPOS` and `YPOS` of the
element at `i` and nothing else. -/
theorem MovePageObject_eq (st : State) (i xpos ypos : Int) (p : PAGEOBJECT Slice)
    (hp : goIndex st.pageObjects i = some p) :
    MovePageObject st i xpos ypos = Outcome.ret
      (st.setPageObjects
        (st.pageObjects.set i.toNat { p with XPOS := Itoa xpos, YPOS := Itoa ypos })) := by
  have h0 : 0 ≤ i := by
    by_contra h
    rw [goIndex_of_neg _ _ (by omega)] at hp
    cases hp
  have hp' : st.pageObjects[i.toNat]? = some p := by rwa [goIndex_of_nonneg _ _ h0] at hp
  have hn : i.toNat < st.pageObjects.length := by
    rcases Nat.lt_or_ge i.toNat st.pageObjects.length with h | h
    · exact h
    · rw [List.getElem?_eq_none h] at hp'; cases hp'
  have hq : goIndex (st.pageObjects.set i.toNat { p with XPOS := Itoa xpos }) i
      = some { p with XPOS := Itoa xpos } := by
    rw [goIndex_of_nonneg _ _ h0, List.getElem?_set_self hn]
  unfold MovePageObject
  simp only [hp, pageObjects_setPageObjects, hq, List.set_set]
  rfl

/-- On a picture frame `ChangePictureOfPageObject` overwrites `PFILE` of the
element at `i` and nothing else. -/
theorem ChangePictureOfPageObject_eq (st : State) (i : Int) (path : String)
    (p : PAGEOBJECT Slice) (hp : goIndex st.pageObjects i = some p) (ht : p.PTYPE = "2") :
    ChangePictureOfPageObject st i path = Outcome.ret
      (st.setPageObjects (st.pageObjects.set i.toNat { p with PFILE := path }), none) := by
  unfold ChangePictureOfPageObject
  simp [hp, ht]

theorem goIndex_set_ne {α : Type} (s : List α) (i k : Int) (x : α) (h0 : 0 ≤ i)
    (hk : k ≠ i) : goIndex (s.set i.toNat x) k = goIndex s k := by
  unfold goIndex
  split
  · next hk0 =>
    rw [List.getElem?_set_ne]
    omega
  · rfl

theorem goIndex_set_eq {α : Type} (s : List α) (i : Int) (x y : α)
    (hy : goIndex s i = some y) : goIndex (s.set i.toNat x) i = some x := by
  unfold goIndex at *
  split at hy
  · next h0 =>
    rw [if_pos h0]
    have hn : i.toNat < s.length := by
      rcases Nat.lt_or_ge i.toNat s.length with h | h
      · exact h
      · rw [List.getElem?_eq_none h] at hy; cases hy
    rw [List.getElem?_set_self hn]
  · cases hy

theorem goIndex_take_drop {α : Type} (s : List α) (i k : Int) (h0 : 0 ≤ i)
    (hi : i < s.length) :
    goIndex (s.take (i.toNat + 1) ++ s.drop i.toNat) k
      = if k ≤ i then goIndex s k else goIndex s (k - 1) := by
  have hn : i.toNat < s.length := by omega
  by_cases hk0 : 0 ≤ k
  · rw [goIndex_of_nonneg _ _ hk0, getElem?_take_drop _ _ _ hn]
    by_cases hki : k ≤ i
    · rw [if_pos hki, if_pos (by omega), goIndex_of_nonneg _ _ hk0]
    · rw [if_neg hki, if_neg (by omega), goIndex_of_nonneg _ _ (by omega)]
      congr 1
      omega
  · rw [goIndex_of_neg _ _ (by omega), if_pos (by omega), goIndex_of_neg _ _ (by omega)]

/-! ## The claims -/

/-- C1: for every document and every index `i` with `0 ≤ i < len(PAGEOBJECT)`,
`DuplicatePageObject(i)` returns no error, the page-object sequence grows by
exactly one element, and afterwards the elements at index `i` and at index
`i+1` both equal the element that was at index `i` before the call. -/
theorem C1_duplicate_postcondition (st : State) (i : Int) (h0 : 0 ≤ i)
    (hi : i < st.pageObjects.length) :
    ∃ st' v, DuplicatePageObject st i = Outcome.ret (st', none) ∧
      st'.pageObjects.length = st.pageObjects.length + 1 ∧
      goIndex st.objects i = some v ∧
      goIndex st'.objects i = some v ∧
      goIndex st'.objects (i + 1) = some v := by
  obtain ⟨st', hst, -, hraw, hobj⟩ := DuplicatePageObject_objects st i h0 hi
  have hi' : i < st.objects.length := by rw [objects_length]; exact hi
  obtain ⟨v, hv, -⟩ := goIndex_eq_some st.objects i h0 hi'
  refine ⟨st', v, hst, ?_, hv, ?_, ?_⟩
  · rw [hraw]; simp; omega
  · rw [hobj, goIndex_take_drop _ _ _ h0 hi', if_pos (le_refl _), hv]
  · rw [hobj, goIndex_take_drop _ _ _ h0 hi', if_neg (by omega)]
    simpa using hv

/-- C1 at the first index of a document with two page objects. -/
theorem C1_duplicate_postcondition_witness :
    ∃ st' v, DuplicatePageObject exampleState 0 = Outcome.ret (st', none) ∧
      st'.pageObjects.length = exampleState.pageObjects.length + 1 ∧
      goIndex exampleState.objects 0 = some v ∧
      goIndex st'.objects 0 = some v ∧
      goIndex st'.objects (0 + 1) = some v :=
  C1_duplicate_postcondition exampleState 0 (by decide) (by decide)

/-- C2: for every document and every valid index `i`, after
`DuplicatePageObject(i)` every element originally at an index `k < i` is
still at index `k`, and every element originally at an index `k > i` is at
index `k+1`; the append / overlapping copy / assign sequence is exactly the
insertion of a copy of element `i` behind position `i`, also when `i` is the
last index. -/
theorem C2_duplicate_is_insertion (st : State) (i : Int) (h0 : 0 ≤ i)
    (hi : i < st.pageObjects.length) :
    ∃ st' v, DuplicatePageObject st i = Outcome.ret (st', none) ∧
      goIndex st.objects i = some v ∧
      (∀ k : Int, k < i → goIndex st'.objects k = goIndex st.objects k) ∧
      (∀ k : Int, i < k → goIndex st'.objects (k + 1) = goIndex st.objects k) ∧
      st'.objects = st.objects.take (i.toNat + 1) ++ v :: st.objects.drop (i.toNat + 1) := by
  obtain ⟨st', hst, -, -, hobj⟩ := DuplicatePageObject_objects st i h0 hi
  have hi' : i < st.objects.length := by rw [objects_length]; exact hi
  obtain ⟨v, hv, hv'⟩ := goIndex_eq_some st.objects i h0 hi'
  refine ⟨st', v, hst, hv, ?_, ?_, ?_⟩
  · intro k hk
    rw [hobj, goIndex_take_drop _ _ _ h0 hi', if_pos (by omega)]
  · intro k hk
    rw [hobj, goIndex_take_drop _ _ _ h0 hi', if_neg (by omega)]
    simp
  · rw [hobj]
    exact take_succ_append_drop _ _ _ hv'

/-- C2 at the last index of a document with two page objects. -/
theorem C2_duplicate_is_insertion_witness :
    ∃ st' v, DuplicatePageObject exampleState 1 = Outcome.ret (st', none) ∧
      goIndex exampleState.objects 1 = some v ∧
      (∀ k : Int, k < 1 → goIndex st'.objects k = goIndex exampleState.objects k) ∧
      (∀ k : Int, 1 < k → goIndex st'.objects (k + 1) = goIndex exampleState.objects k) ∧
      st'.objects = exampleState.objects.take ((1 : Int).toNat + 1)
        ++ v :: exampleState.objects.drop ((1 : Int).toNat + 1) :=
  C2_duplicate_is_insertion exampleState 1 (by decide) (by decide)

/-- C3: for every document, every valid index `i` and all integers `x` and
`y`, whatever the object at `i` is, after `MovePageObject(i, x, y)` the
object's `XPOS` is the decimal string of `x`, its `YPOS` the decimal string
of `y`, and it is otherwise the object that was there before (all other
attributes and the story text included). -/
theorem C3_move_exact (st : State) (i x y : Int) (h0 : 0 ≤ i)
    (hi : i < st.pageObjects.length) :
    ∃ st' v w, MovePageObject st i x y = Outcome.ret st' ∧
      goIndex st.objects i = some v ∧
      goIndex st'.objects i = some w ∧
      w.XPOS = Itoa x ∧ w.YPOS = Itoa y ∧
      w = { v with XPOS := Itoa x, YPOS := Itoa y } := by
  obtain ⟨p, hp, -⟩ := goIndex_eq_some st.pageObjects i h0 hi
  refine ⟨_, p.value st.heap, _, MovePageObject_eq st i x y p hp, ?_, ?_, rfl, rfl, rfl⟩
  · rw [State.objects, goIndex_map, hp]; rfl
  · rw [objects_setPageObjects, goIndex_map, goIndex_set_eq _ _ _ _ hp]
    rfl

/-- C3 on the picture frame of the example document, moved to `(-5, 0)`. -/
theorem C3_move_exact_witness :
    Itoa (-5) = "-5" ∧ Itoa 0 = "0" ∧
    ∃ st' v w, MovePageObject exampleState 1 (-5) 0 = Outcome.ret st' ∧
      goIndex exampleState.objects 1 = some v ∧
      goIndex st'.objects 1 = some w ∧
      w.XPOS = Itoa (-5) ∧ w.YPOS = Itoa 0 ∧
      w = { v with XPOS := Itoa (-5), YPOS := Itoa 0 } :=
  ⟨by decide, by decide, C3_move_exact exampleState 1 (-5) 0 (by decide) (by decide)⟩

/-- C5: for every document, every valid index `i` whose object's `PTYPE` is
not `"1"`, and every string `text`, `ChangeTextOfPageObject(i, text)` returns
an error and the document afterwards equals the document before the call. -/
theorem C5_change_text_type_mismatch (st : State) (i : Int) (text : String)
    (p : PAGEOBJECT Slice) (hp : goIndex st.pageObjects i = some p)
    (ht : p.PTYPE ≠ "1") :
    ∃ st' msg, ChangeTextOfPageObject st i text = Outcome.ret (st', some msg) ∧
      st' = st ∧ st'.value = st.value := by
  refine ⟨st, "Is not a text frame (assuming that a text frame is PTYPE 1)", ?_, rfl, rfl⟩
  unfold ChangeTextOfPageObject
  simp [hp, ht]

/-- C5 on the picture frame of the example document. -/
theorem C5_change_text_type_mismatch_witness :
    ∃ st' msg, ChangeTextOfPageObject exampleState 1 "World" = Outcome.ret (st', some msg) ∧
      st' = exampleState ∧ st'.value = exampleState.value :=
  C5_change_text_type_mismatch exampleState 1 "World" (pictureFrame "30" "40" "a.png")
    (by decide) (by decide)

/-- C6: for every document, every valid index `i` whose object's `PTYPE` is
not `"2"`, and every string `path`, `ChangePictureOfPageObject(i, path)`
returns an error and the document afterwards equals the document before the
call. -/
theorem C6_change_picture_type_mismatch (st : State) (i : Int) (path : String)
    (p : PAGEOBJECT Slice) (hp : goIndex st.pageObjects i = some p)
    (ht : p.PTYPE ≠ "2") :
    ∃ st' msg, ChangePictureOfPageObject st i path = Outcome.ret (st', some msg) ∧
      st' = st ∧ st'.value = st.value := by
  refine ⟨st, "Is not a picture frame (assuming that a picture frame is PTYPE 2)", ?_,
    rfl, rfl⟩
  unfold ChangePictureOfPageObject
  simp [hp, ht]

/-- C6 on the text frame of the example document. -/
theorem C6_change_picture_type_mismatch_witness :
    ∃ st' msg, ChangePictureOfPageObject exampleState 0 "b.png"
        = Outcome.ret (st', some msg) ∧
      st' = exampleState ∧ st'.value = exampleState.value :=
  C6_change_picture_type_mismatch exampleState 0 "b.png" (textFrame "10" "20" ⟨0, 2, 2⟩)
    (by decide) (by decide)

/-- C7: for every document, every valid index `i` whose object has `PTYPE`
`"2"`, and every string `path`, `ChangePictureOfPageObject(i, path)` returns
no error and afterwards the object's `PFILE` is `path`, while its position,
size, scaling and every other attribute, every other page object and the
object count are unchanged. -/
theorem C7_change_picture_frame (st : State) (i : Int) (path : String)
    (p : PAGEOBJECT Slice) (hp : goIndex st.pageObjects i = some p)
    (ht : p.PTYPE = "2") :
    ∃ st' v w, ChangePictureOfPageObject st i path = Outcome.ret (st', none) ∧
      goIndex st.objects i = some v ∧
      goIndex st'.objects i = some w ∧
      w.PFILE = path ∧
      w = { v with PFILE := path } ∧
      st'.objects.length = st.objects.length ∧
      (∀ k : Int, k ≠ i → goIndex st'.objects k = goIndex st.objects k) := by
  have h0 : 0 ≤ i := by
    by_contra h
    rw [goIndex_of_neg _ _ (by omega)] at hp
    cases hp
  refine ⟨_, p.value st.heap, _, ChangePictureOfPageObject_eq st i path p hp ht,
    ?_, ?_, rfl, rfl, ?_, ?_⟩
  · rw [State.objects, goIndex_map, hp]; rfl
  · rw [objects_setPageObjects, goIndex_map, goIndex_set_eq _ _ _ _ hp]
    rfl
  · simp [State.objects]
  · intro k hk
    rw [objects_setPageObjects, goIndex_map, goIndex_set_ne _ _ _ _ h0 hk, State.objects,
      goIndex_map]

/-- C7 on the picture frame of the example document. -/
theorem C7_change_picture_frame_witness :
    ∃ st' v w, ChangePictureOfPageObject exampleState 1 "b.png" = Outcome.ret (st', none) ∧
      goIndex exampleState.objects 1 = some v ∧
      goIndex st'.objects 1 = some w ∧
      w.PFILE = "b.png" ∧
      w = { v with PFILE := "b.png" } ∧
      st'.objects.length = exampleState.objects.length ∧
      (∀ k : Int, k ≠ 1 → goIndex st'.objects k = goIndex exampleState.objects k) :=
  C7_change_picture_frame exampleState 1 "b.png" (pictureFrame "30" "40" "a.png")
    (by decide) (by decide)

/-- C8: for every document and every valid index `i`, after
`DuplicatePageObject(i)` followed by `MovePageObject(i+1, x, y)` the object
at index `i+1` has position `(x, y)` and otherwise equals the original
object `i`, the object at index `i` equals the original object `i` with its
original position, every original object before `i` keeps its index and
every original object after `i` sits one index higher, unchanged; the
sequence has one element more. -/
theorem C8_duplicate_then_move (st : State) (i x y : Int) (h0 : 0 ≤ i)
    (hi : i < st.pageObjects.length) :
    ∃ st1 st2 v, DuplicatePageObject st i = Outcome.ret (st1, none) ∧
      MovePageObject st1 (i + 1) x y = Outcome.ret st2 ∧
      goIndex st.objects i = some v ∧
      goIndex st2.objects (i + 1) = some { v with XPOS := Itoa x, YPOS := Itoa y } ∧
      goIndex st2.objects i = some v ∧
      (∀ k : Int, k < i → goIndex st2.objects k = goIndex st.objects k) ∧
      (∀ k : Int, i < k → goIndex st2.objects (k + 1) = goIndex st.objects k) ∧
      st2.objects.length = st.objects.length + 1 := by
  obtain ⟨st1, hst1, hheap, hraw, hobj⟩ := DuplicatePageObject_objects st i h0 hi
  obtain ⟨p, hp, -⟩ := goIndex_eq_some st.pageObjects i h0 hi
  have hi' : i < st.objects.length := by rw [objects_length]; exact hi
  have hv : goIndex st.objects i = some (p.value st.heap) := by
    rw [State.objects, goIndex_map, hp]; rfl
  have hp1 : goIndex st1.pageObjects (i + 1) = some p := by
    rw [hraw, goIndex_take_drop _ _ _ h0 hi, if_neg (by omega)]
    simpa using hp
  have h1 : ∀ k : Int, goIndex st1.objects k
      = if k ≤ i then goIndex st.objects k else goIndex st.objects (k - 1) := by
    intro k
    rw [hobj, goIndex_take_drop _ _ _ h0 hi']
  refine ⟨st1, _, p.value st.heap, hst1, MovePageObject_eq st1 (i + 1) x y p hp1, hv,
    ?_, ?_, ?_, ?_, ?_⟩
  · rw [objects_setPageObjects, goIndex_map, goIndex_set_eq _ _ _ _ hp1, hheap]
    rfl
  · rw [objects_setPageObjects, goIndex_map, goIndex_set_ne _ _ _ _ (by omega) (by omega),
      ← goIndex_map]
    have := h1 i
    rw [if_pos (le_refl _), hv] at this
    exact this
  · intro k hk
    rw [objects_setPageObjects, goIndex_map, goIndex_set_ne _ _ _ _ (by omega) (by omega),
      ← goIndex_map]
    have := h1 k
    rw [if_pos (by omega)] at this
    exact this
  · intro k hk
    rw [objects_setPageObjects, goIndex_map, goIndex_set_ne _ _ _ _ (by omega) (by omega),
      ← goIndex_map]
    have := h1 (k + 1)
    rw [if_neg (by omega)] at this
    simpa using this
  · rw [objects_setPageObjects, List.length_map, List.length_set, hraw, objects_length]
    simp
    omega

/-- C8 on the example document: starting from 2 objects, duplicating object
0 and moving the copy to `(100, 200)` gives 3 objects with index 1 at
`("100", "200")` and indices 0 and 2 equal to the original objects 0 and 1. -/
theorem C8_duplicate_then_move_witness :
    exampleState.objects.length = 2 ∧ Itoa 100 = "100" ∧ Itoa 200 = "200" ∧
    ∃ st1 st2 v, DuplicatePageObject exampleState 0 = Outcome.ret (st1, none) ∧
      MovePageObject st1 (0 + 1) 100 200 = Outcome.ret st2 ∧
      goIndex exampleState.objects 0 = some v ∧
      goIndex st2.objects (0 + 1) = some { v with XPOS := Itoa 100, YPOS := Itoa 200 } ∧
      goIndex st2.objects 0 = some v ∧
      (∀ k : Int, k < 0 → goIndex st2.objects k = goIndex exampleState.objects k) ∧
      (∀ k : Int, 0 < k → goIndex st2.objects (k + 1) = goIndex exampleState.objects k) ∧
      st2.objects.length = exampleState.objects.length + 1 :=
  ⟨by decide, by decide, by decide,
    C8_duplicate_then_move exampleState 0 100 200 (by decide) (by decide)⟩

/-! ## Text runs and shared storage -/

theorem runs_update_of_not_covers (h : Heap) (s : Slice) (a : Nat) (x : ITEXT)
    (hs : ¬ s.covers a) : Slice.runs (Function.update h a x) s = Slice.runs h s := by
  unfold Slice.runs
  apply List.map_congr_left
  intro k hk
  have hk' : k < s.len := List.mem_range.mp hk
  have hne : s.base + k ≠ a := by
    intro he
    apply hs
    unfold Slice.covers
    omega
  exact Function.update_noteq hne x h

theorem runs_getElem? (h : Heap) (s : Slice) (k : Nat) :
    (Slice.runs h s)[k]? = if k < s.len then some (h (s.base + k)) else none := by
  unfold Slice.runs
  by_cases hk : k < s.len
  · rw [if_pos hk, List.getElem?_map, List.getElem?_range hk]
    rfl
  · rw [if_neg hk, List.getElem?_eq_none (by simp; omega)]

theorem runs_update_base (h : Heap) (s : Slice) (x : ITEXT) (hlen : 0 < s.len) :
    Slice.runs (Function.update h s.base x) s = (Slice.runs h s).set 0 x := by
  apply List.ext_getElem?
  intro k
  rw [List.getElem?_set, runs_getElem?, runs_getElem?]
  have hl : (Slice.runs h s).length = s.len := by simp [Slice.runs]
  by_cases hk : k < s.len
  · rcases Nat.eq_zero_or_pos k with h0 | h0
    · subst h0
      simp [hlen, hl]
    · have hne : s.base + k ≠ s.base := by omega
      have h0' : ¬ (0 = k) := by omega
      simp [hk, hne, h0']
  · have h0' : ¬ (0 = k) := by omega
    simp [hk, h0']

theorem runs_head (h : Heap) (s : Slice) (hlen : 0 < s.len) :
    (Slice.runs h s).head? = some (h s.base) := by
  rw [List.head?_eq_getElem?, runs_getElem?, if_pos hlen]
  rfl

/-- On a text frame with at least one run `ChangeTextOfPageObject` returns
`nil` and writes `text` into the `CH` of the cell the frame's slice header
points to; the document structure itself is not touched.  The frame's value
changes in the `CH` of its first run only, and the value of every page
object whose runs do not include that cell is unchanged. -/
theorem ChangeTextOfPageObject_unshared (st : State) (i : Int) (text : String)
    (p : PAGEOBJECT Slice) (hp : goIndex st.pageObjects i = some p)
    (ht : p.PTYPE = "1") (hlen : 0 < p.StoryText.ITEXT.len) :
    ∃ st' r, ChangeTextOfPageObject st i text = Outcome.ret (st', none) ∧
      st'.doc = st.doc ∧
      (p.value st.heap).StoryText.ITEXT.head? = some r ∧
      p.value st'.heap = { p.value st.heap with
        StoryText := { (p.value st.heap).StoryText with
          ITEXT := (p.value st.heap).StoryText.ITEXT.set 0 { r with CH := text } } } ∧
      (∀ q : PAGEOBJECT Slice, ¬ q.StoryText.ITEXT.covers p.StoryText.ITEXT.base →
        q.value st'.heap = q.value st.heap) := by
  refine ⟨⟨st.doc, Function.update st.heap p.StoryText.ITEXT.base
      ({ st.heap p.StoryText.ITEXT.base with CH := text })⟩, st.heap p.StoryText.ITEXT.base,
    ?_, rfl, ?_, ?_, ?_⟩
  · unfold ChangeTextOfPageObject
    simp [hp, ht, hlen]
  · exact runs_head _ _ hlen
  · show p.map (Slice.runs _) = _
    unfold PAGEOBJECT.value PAGEOBJECT.map StoryText.map
    simp only [runs_update_base _ _ _ hlen]
  · intro q hq
    show q.map (Slice.runs _) = q.map (Slice.runs _)
    unfold PAGEOBJECT.map StoryText.map
    simp only [runs_update_of_not_covers _ _ _ _ hq]

/-- C4, evaluated on a document that has been through
`DuplicatePageObject`: the example document's text frame is duplicated, then
`ChangeTextOfPageObject(0, "World")` is called.  The call returns no error,
and the first run of the page object at index 1, which was `Hello`, reads
`World` afterwards: the two frames carry the same slice header, so the write
through object 0 is a write to object 1 as well. -/
theorem C4_change_text_reaches_duplicate :
    DuplicatePageObject exampleState 0 = Outcome.ret (duplicatedState, none) ∧
    ∃ st', ChangeTextOfPageObject duplicatedState 0 "World" = Outcome.ret (st', none) ∧
      (goIndex duplicatedState.objects 0).bind firstCH = some "Hello" ∧
      (goIndex duplicatedState.objects 1).bind firstCH = some "Hello" ∧
      (goIndex st'.objects 0).bind firstCH = some "World" ∧
      (goIndex st'.objects 1).bind firstCH = some "World" ∧
      goIndex st'.objects 1 ≠ goIndex duplicatedState.objects 1 :=
  ⟨rfl, _, rfl, by decide, by decide, by decide, by decide, by decide⟩

/-! ## The post-processing of the marshalled text -/

theorem replaceLoop_fuel (old new : List Char) (hne : old ≠ []) :
    ∀ (n m : Nat) (s : List Char), s.length ≤ n → s.length ≤ m →
      replaceLoop old new n s = replaceLoop old new m s := by
  intro n
  induction n with
  | zero =>
    intro m s hn _
    have hs : s = [] := List.length_eq_zero.mp (by omega)
    subst hs
    cases m <;> simp [replaceLoop]
  | succ n ih =>
    intro m s hn hm
    cases s with
    | nil => cases m <;> simp [replaceLoop]
    | cons c cs =>
      cases m with
      | zero => simp at hm
      | succ m =>
        have hpos : 0 < old.length := List.length_pos.mpr hne
        have hd : ((c :: cs).drop old.length).length ≤ cs.length := by
          simp
          omega
        simp only [List.length_cons, Nat.add_le_add_iff_right] at hn hm
        simp only [replaceLoop]
        rw [ih m _ (by omega) (by omega), ih m cs hn hm]

theorem strip_nil : stripNewlineEscapes [] = [] := rfl

theorem strip_cons (c : Char) (cs : List Char) :
    stripNewlineEscapes (c :: cs)
      = if escNL.isPrefixOf (c :: cs) then stripNewlineEscapes ((c :: cs).drop 5)
        else c :: stripNewlineEscapes cs := by
  have hne : escNL ≠ [] := by decide
  unfold stripNewlineEscapes Replace
  simp only [List.length_cons, replaceLoop, List.nil_append]
  rw [replaceLoop_fuel escNL [] hne cs.length _ ((c :: cs).drop escNL.length)
    (by simp [escNL]) (le_refl _)]
  rfl

theorem strip_esc (r : List Char) : stripNewlineEscapes (escNL ++ r) = stripNewlineEscapes r := by
  show stripNewlineEscapes ('&' :: '#' :: 'x' :: 'A' :: ';' :: r) = _
  rw [strip_cons]
  simp [escNL, List.isPrefixOf]

theorem strip_cons_of_ne (c : Char) (cs : List Char) (hc : c ≠ '&') :
    stripNewlineEscapes (c :: cs) = c :: stripNewlineEscapes cs := by
  rw [strip_cons]
  have : escNL.isPrefixOf (c :: cs) = false := by
    simp [escNL, List.isPrefixOf]
    intro h
    exact absurd h.symm hc
  rw [this]
  rfl

/-- An occurrence of the escape that starts in `u` does not reach a following
character that is none of `#`, `x`, `A`, `;`. -/
theorem isPrefixOf_append_cons (u w : List Char) (x : Char) (hu : u ≠ [])
    (hx : x ≠ '#' ∧ x ≠ 'x' ∧ x ≠ 'A' ∧ x ≠ ';')
    (h : escNL.isPrefixOf (u ++ x :: w) = true) : escNL.isPrefixOf u = true := by
  obtain ⟨h1, h2, h3, h4⟩ := hx
  rcases u with _ | ⟨a, _ | ⟨b, _ | ⟨c, _ | ⟨d, _ | ⟨e, r⟩⟩⟩⟩⟩
  · exact absurd rfl hu
  · simp [escNL, List.isPrefixOf] at h
    exact absurd h.2.1.symm h1
  · simp [escNL, List.isPrefixOf] at h
    exact absurd h.2.2.1.symm h2
  · simp [escNL, List.isPrefixOf] at h
    exact absurd h.2.2.2.1.symm h3
  · simp [escNL, List.isPrefixOf] at h
    exact absurd h.2.2.2.2.symm h4
  · simp [escNL, List.isPrefixOf] at h ⊢
    exact h

/-- The post-processing works on `u` and on what follows it independently
when what follows starts with a character that is none of `#`, `x`, `A`,
`;`. -/
theorem strip_append_cons (x : Char) (w : List Char)
    (hx : x ≠ '#' ∧ x ≠ 'x' ∧ x ≠ 'A' ∧ x ≠ ';') :
    ∀ (n : Nat) (u : List Char), u.length ≤ n →
      stripNewlineEscapes (u ++ x :: w)
        = stripNewlineEscapes u ++ stripNewlineEscapes (x :: w) := by
  intro n
  induction n with
  | zero =>
    intro u hn
    have hs : u = [] := List.length_eq_zero.mp (by omega)
    subst hs
    rfl
  | succ n ih =>
    intro u hn
    cases u with
    | nil => rfl
    | cons c cs =>
      rw [List.cons_append, strip_cons, strip_cons c cs]
      by_cases hp : escNL.isPrefixOf (c :: cs) = true
      · have hp' : escNL.isPrefixOf (c :: (cs ++ x :: w)) = true := by
          rw [List.isPrefixOf_iff_prefix] at hp ⊢
          exact hp.trans (List.prefix_append _ _)
        have h5 : 5 ≤ (c :: cs).length := by
          rw [List.isPrefixOf_iff_prefix] at hp
          exact hp.length_le
        rw [if_pos hp, if_pos hp', ← List.cons_append, List.drop_append_of_le_length h5]
        apply ih
        simp at hn ⊢
        omega
      · have hp' : ¬ escNL.isPrefixOf (c :: (cs ++ x :: w)) = true := by
          intro h
          exact hp (isPrefixOf_append_cons (c :: cs) w x (by simp) hx h)
        rw [if_neg hp, if_neg hp', ih cs (by simpa using hn)]
        rfl

/-- The post-processing neither adds nor removes a newline character. -/
theorem count_newline_strip :
    ∀ (n : Nat) (t : List Char), t.length ≤ n →
      (stripNewlineEscapes t).count (Char.ofNat 10) = t.count (Char.ofNat 10) := by
  intro n
  induction n with
  | zero =>
    intro t hn
    have hs : t = [] := List.length_eq_zero.mp (by omega)
    subst hs
    rfl
  | succ n ih =>
    intro t hn
    cases t with
    | nil => rfl
    | cons c cs =>
      rw [strip_cons]
      by_cases hp : escNL.isPrefixOf (c :: cs) = true
      · rw [if_pos hp]
        obtain ⟨r, hr⟩ := List.isPrefixOf_iff_prefix.mp hp
        rw [← hr]
        have hd : List.drop 5 (escNL ++ r) = r := rfl
        have hlen : r.length ≤ n := by
          have := congrArg List.length hr
          simp [escNL] at this hn
          omega
        rw [hd, ih r hlen, List.count_append]
        have : escNL.count (Char.ofNat 10) = 0 := by decide
        omega
      · rw [if_neg hp, List.count_cons, List.count_cons, ih cs (by simpa using hn)]

/-! ## Escaping and resolving a field value -/

/-- The characters `escapeChar` treats specially. -/
theorem escapeChar_cases (c : Char) :
    c = Char.ofNat 34 ∨ c = Char.ofNat 39 ∨ c = '&' ∨ c = '<' ∨ c = '>' ∨
    c = Char.ofNat 9 ∨ c = Char.ofNat 10 ∨ c = Char.ofNat 13 ∨
    (c ≠ '&' ∧ escapeChar c = [if isInCharacterRange c then c else Char.ofNat 0xFFFD]) := by
  by_cases h1 : c = Char.ofNat 34
  · exact Or.inl h1
  by_cases h2 : c = Char.ofNat 39
  · exact Or.inr (Or.inl h2)
  by_cases h3 : c = '&'
  · exact Or.inr (Or.inr (Or.inl h3))
  by_cases h4 : c = '<'
  · exact Or.inr (Or.inr (Or.inr (Or.inl h4)))
  by_cases h5 : c = '>'
  · exact Or.inr (Or.inr (Or.inr (Or.inr (Or.inl h5))))
  by_cases h6 : c = Char.ofNat 9
  · exact Or.inr (Or.inr (Or.inr (Or.inr (Or.inr (Or.inl h6)))))
  by_cases h7 : c = Char.ofNat 10
  · exact Or.inr (Or.inr (Or.inr (Or.inr (Or.inr (Or.inr (Or.inl h7))))))
  by_cases h8 : c = Char.ofNat 13
  · exact Or.inr (Or.inr (Or.inr (Or.inr (Or.inr (Or.inr (Or.inr (Or.inl h8)))))))
  refine Or.inr (Or.inr (Or.inr (Or.inr (Or.inr (Or.inr (Or.inr (Or.inr ⟨h3, ?_⟩)))))))
  unfold escapeChar
  rw [if_neg h1, if_neg h2, if_neg h3, if_neg h4, if_neg h5, if_neg h6, if_neg h7, if_neg h8]
  split <;> rfl

/-- The escaped form of a character other than the newline passes through
the post-processing unchanged, whatever follows it. -/
theorem strip_escapeChar (c : Char) (rest : List Char) (hc : c ≠ Char.ofNat 10) :
    stripNewlineEscapes (escapeChar c ++ rest) = escapeChar c ++ stripNewlineEscapes rest := by
  rcases escapeChar_cases c with h | h | h | h | h | h | h | h | ⟨h, he⟩
  · subst h
    show stripNewlineEscapes ('&' :: '#' :: '3' :: '4' :: ';' :: rest) = _
    rw [strip_cons, if_neg (by simp [escNL, List.isPrefixOf]),
      strip_cons_of_ne _ _ (by decide), strip_cons_of_ne _ _ (by decide),
      strip_cons_of_ne _ _ (by decide), strip_cons_of_ne _ _ (by decide)]
    rfl
  · subst h
    show stripNewlineEscapes ('&' :: '#' :: '3' :: '9' :: ';' :: rest) = _
    rw [strip_cons, if_neg (by simp [escNL, List.isPrefixOf]),
      strip_cons_of_ne _ _ (by decide), strip_cons_of_ne _ _ (by decide),
      strip_cons_of_ne _ _ (by decide), strip_cons_of_ne _ _ (by decide)]
    rfl
  · subst h
    show stripNewlineEscapes ('&' :: 'a' :: 'm' :: 'p' :: ';' :: rest) = _
    rw [strip_cons, if_neg (by simp [escNL, List.isPrefixOf]),
      strip_cons_of_ne _ _ (by decide), strip_cons_of_ne _ _ (by decide),
      strip_cons_of_ne _ _ (by decide), strip_cons_of_ne _ _ (by decide)]
    rfl
  · subst h
    show stripNewlineEscapes ('&' :: 'l' :: 't' :: ';' :: rest) = _
    rw [strip_cons, if_neg (by simp [escNL, List.isPrefixOf]),
      strip_cons_of_ne _ _ (by decide), strip_cons_of_ne _ _ (by decide),
      strip_cons_of_ne _ _ (by decide)]
    rfl
  · subst h
    show stripNewlineEscapes ('&' :: 'g' :: 't' :: ';' :: rest) = _
    rw [strip_cons, if_neg (by simp [escNL, List.isPrefixOf]),
      strip_cons_of_ne _ _ (by decide), strip_cons_of_ne _ _ (by decide),
      strip_cons_of_ne _ _ (by decide)]
    rfl
  · subst h
    show stripNewlineEscapes ('&' :: '#' :: 'x' :: '9' :: ';' :: rest) = _
    rw [strip_cons, if_neg (by simp [escNL, List.isPrefixOf]),
      strip_cons_of_ne _ _ (by decide), strip_cons_of_ne _ _ (by decide),
      strip_cons_of_ne _ _ (by decide), strip_cons_of_ne _ _ (by decide)]
    rfl
  · exact absurd h hc
  · subst h
    show stripNewlineEscapes ('&' :: '#' :: 'x' :: 'D' :: ';' :: rest) = _
    rw [strip_cons, if_neg (by simp [escNL, List.isPrefixOf]),
      strip_cons_of_ne _ _ (by decide), strip_cons_of_ne _ _ (by decide),
      strip_cons_of_ne _ _ (by decide), strip_cons_of_ne _ _ (by decide)]
    rfl
  · rw [he]
    by_cases hr : isInCharacterRange c = true
    · rw [if_pos hr]
      exact strip_cons_of_ne _ _ h
    · rw [if_neg hr]
      exact strip_cons_of_ne _ _ (by decide)

/-- A value without a newline is written as the marshaller escaped it. -/
theorem strip_escapeText (v : List Char) (hn : Char.ofNat 10 ∉ v) :
    stripNewlineEscapes (escapeText v) = escapeText v := by
  induction v with
  | nil => rfl
  | cons c cs ih =>
    simp only [List.mem_cons, not_or] at hn
    show stripNewlineEscapes (escapeChar c ++ escapeText cs) = escapeChar c ++ escapeText cs
    rw [strip_escapeChar c _ (fun h => hn.1 h.symm), ih hn.2]

/-! ## Reading back what was written -/

theorem escapeChar_plain (c : Char)
    (h1 : c ≠ Char.ofNat 34) (h2 : c ≠ Char.ofNat 39) (h3 : c ≠ '&') (h4 : c ≠ '<')
    (h5 : c ≠ '>') (h6 : c ≠ Char.ofNat 9) (h7 : c ≠ Char.ofNat 10)
    (h8 : c ≠ Char.ofNat 13) : escapeChar c = [sanitizeChar c] := by
  unfold escapeChar sanitizeChar
  rw [if_neg h1, if_neg h2, if_neg h3, if_neg h4, if_neg h5, if_neg h6, if_neg h7, if_neg h8]
  split <;> rfl

theorem sanitizeChar_inRange (c : Char) : isInCharacterRange (sanitizeChar c) = true := by
  unfold sanitizeChar
  split
  · assumption
  · decide

theorem sanitizeChar_of_inRange (c : Char) (h : isInCharacterRange c = true) :
    sanitizeChar c = c := by
  unfold sanitizeChar
  rw [if_pos h]

theorem sanitizeChar_plain (c : Char)
    (h1 : c ≠ Char.ofNat 34) (h3 : c ≠ '&') (h4 : c ≠ '<')
    (h5 : c ≠ '>') (h7 : c ≠ Char.ofNat 10) (h8 : c ≠ Char.ofNat 13) :
    sanitizeChar c ≠ Char.ofNat 34 ∧ sanitizeChar c ≠ '&' ∧ sanitizeChar c ≠ '<' ∧
    sanitizeChar c ≠ '>' ∧ sanitizeChar c ≠ Char.ofNat 10 ∧
    sanitizeChar c ≠ Char.ofNat 13 := by
  unfold sanitizeChar
  split
  · exact ⟨h1, h3, h4, h5, h7, h8⟩
  · decide

/-- The post-processing turns the escaped form of a value into the escaped
form of the value without its newline characters, whatever follows. -/
theorem strip_escapeText_append (v rest : List Char) :
    stripNewlineEscapes (escapeText v ++ rest)
      = escapeText (dropNewlines v) ++ stripNewlineEscapes rest := by
  induction v with
  | nil => rfl
  | cons c cs ih =>
    by_cases hc : c = Char.ofNat 10
    · subst hc
      have h1 : escapeText (Char.ofNat 10 :: cs) = escNL ++ escapeText cs := rfl
      have h2 : dropNewlines (Char.ofNat 10 :: cs) = dropNewlines cs := by
        simp [dropNewlines]
      rw [h1, h2, List.append_assoc, strip_esc, ih]
    · have h1 : escapeText (c :: cs) = escapeChar c ++ escapeText cs := rfl
      have h2 : dropNewlines (c :: cs) = c :: dropNewlines cs := by
        simp [dropNewlines, hc]
      rw [h1, h2, List.append_assoc, strip_escapeChar c _ hc, ih]
      show _ = (escapeChar c ++ escapeText (dropNewlines cs)) ++ _
      rw [List.append_assoc]

/-- A character of ordinary text that ends nothing and starts nothing is
appended to the text read. -/
theorem decodeAux_plain_char (q : Option Char) (hq : q = some (Char.ofNat 34) ∨ q = none)
    (b0 b1 s : Char) (out rest : List Char)
    (hs : s ≠ Char.ofNat 34 ∧ s ≠ '&' ∧ s ≠ '<' ∧ s ≠ '>' ∧ s ≠ Char.ofNat 10 ∧
      s ≠ Char.ofNat 13) :
    decodeAux q (TextState.plain b0 b1) out (s :: rest)
      = decodeAux q (TextState.plain b1 s) (s :: out) rest := by
  obtain ⟨h1, h3, h4, h5, h7, h8⟩ := hs
  have hquote : ¬ (q = some s) := by
    rcases hq with h | h
    · rw [h]
      intro he
      exact h1 (Option.some.inj he).symm
    · rw [h]
      intro he
      cases he
  rw [decodeAux]
  simp only [h5, and_false, if_false, h4, hquote, h3, h8, h7]

/-- Behind an `&` the decoder is in the same position whatever the ordinary
text before it was. -/
theorem decodeAux_amp (q : Option Char) (hq : q = some (Char.ofNat 34) ∨ q = none)
    (b0 b1 : Char) (out rest : List Char) :
    decodeAux q (TextState.plain b0 b1) out ('&' :: rest)
      = decodeAux q TextState.amp out rest := by
  have hquote : ¬ (q = some '&') := by
    rcases hq with h | h <;> rw [h] <;> decide
  rw [decodeAux]
  simp [hquote]

/-- The decoder reads the escaped form of one character as that character
(as U+FFFD when the character is outside the XML character range). -/
theorem decodeAux_escapeChar (q : Option Char) (hq : q = some (Char.ofNat 34) ∨ q = none)
    (c b0 b1 : Char) (out rest : List Char) :
    ∃ b0' b1', decodeAux q (TextState.plain b0 b1) out (escapeChar c ++ rest)
      = decodeAux q (TextState.plain b0' b1') (sanitizeChar c :: out) rest := by
  by_cases h1 : c = Char.ofNat 34
  · subst h1
    refine ⟨Char.ofNat 0, Char.ofNat 0, ?_⟩
    show decodeAux q _ out ('&' :: '#' :: '3' :: '4' :: ';' :: rest) = _
    rw [decodeAux_amp q hq]
    simp [decodeAux, digitOf, runeText]
    rfl
  by_cases h2 : c = Char.ofNat 39
  · subst h2
    refine ⟨Char.ofNat 0, Char.ofNat 0, ?_⟩
    show decodeAux q _ out ('&' :: '#' :: '3' :: '9' :: ';' :: rest) = _
    rw [decodeAux_amp q hq]
    simp [decodeAux, digitOf, runeText]
    rfl
  by_cases h3 : c = '&'
  · subst h3
    refine ⟨Char.ofNat 0, Char.ofNat 0, ?_⟩
    show decodeAux q _ out ('&' :: 'a' :: 'm' :: 'p' :: ';' :: rest) = _
    rw [decodeAux_amp q hq]
    simp [decodeAux, isNameByte, entityOf]
    rfl
  by_cases h4 : c = '<'
  · subst h4
    refine ⟨Char.ofNat 0, Char.ofNat 0, ?_⟩
    show decodeAux q _ out ('&' :: 'l' :: 't' :: ';' :: rest) = _
    rw [decodeAux_amp q hq]
    simp [decodeAux, isNameByte, entityOf]
    rfl
  by_cases h5 : c = '>'
  · subst h5
    refine ⟨Char.ofNat 0, Char.ofNat 0, ?_⟩
    show decodeAux q _ out ('&' :: 'g' :: 't' :: ';' :: rest) = _
    rw [decodeAux_amp q hq]
    simp [decodeAux, isNameByte, entityOf]
    rfl
  by_cases h6 : c = Char.ofNat 9
  · subst h6
    refine ⟨Char.ofNat 0, Char.ofNat 0, ?_⟩
    show decodeAux q _ out ('&' :: '#' :: 'x' :: '9' :: ';' :: rest) = _
    rw [decodeAux_amp q hq]
    simp [decodeAux, digitOf, runeText]
    rfl
  by_cases h7 : c = Char.ofNat 10
  · subst h7
    refine ⟨Char.ofNat 0, Char.ofNat 0, ?_⟩
    show decodeAux q _ out ('&' :: '#' :: 'x' :: 'A' :: ';' :: rest) = _
    rw [decodeAux_amp q hq]
    simp [decodeAux, digitOf, runeText]
    rfl
  by_cases h8 : c = Char.ofNat 13
  · subst h8
    refine ⟨Char.ofNat 0, Char.ofNat 0, ?_⟩
    show decodeAux q _ out ('&' :: '#' :: 'x' :: 'D' :: ';' :: rest) = _
    rw [decodeAux_amp q hq]
    simp [decodeAux, digitOf, runeText]
    rfl
  refine ⟨b1, sanitizeChar c, ?_⟩
  rw [escapeChar_plain c h1 h2 h3 h4 h5 h6 h7 h8]
  exact decodeAux_plain_char q hq b0 b1 _ out rest (sanitizeChar_plain c h1 h3 h4 h5 h7 h8)

/-- The decoder reads the escaped form of a value as that value (with U+FFFD
for the characters outside the XML character range). -/
theorem decodeAux_escapeText (q : Option Char) (hq : q = some (Char.ofNat 34) ∨ q = none)
    (w : List Char) :
    ∀ (b0 b1 : Char) (out rest : List Char),
      ∃ b0' b1', decodeAux q (TextState.plain b0 b1) out (escapeText w ++ rest)
        = decodeAux q (TextState.plain b0' b1') ((w.map sanitizeChar).reverse ++ out) rest := by
  induction w with
  | nil =>
    intro b0 b1 out rest
    exact ⟨b0, b1, rfl⟩
  | cons c cs ih =>
    intro b0 b1 out rest
    obtain ⟨c0, c1, hc⟩ := decodeAux_escapeChar q hq c b0 b1 out (escapeText cs ++ rest)
    obtain ⟨d0, d1, hd⟩ := ih c0 c1 (sanitizeChar c :: out) rest
    refine ⟨d0, d1, ?_⟩
    show decodeAux q _ out ((escapeChar c ++ escapeText cs) ++ rest) = _
    rw [List.append_assoc, hc, hd]
    simp

theorem finishText_sanitized (w out rest : List Char) (ho : out = (w.map sanitizeChar).reverse) :
    finishText out rest = Except.ok (w.map sanitizeChar, rest) := by
  subst ho
  unfold finishText
  rw [List.reverse_reverse]
  have : (w.map sanitizeChar).all isInCharacterRange = true := by
    rw [List.all_eq_true]
    intro x hx
    obtain ⟨c, -, rfl⟩ := List.mem_map.mp hx
    exact sanitizeChar_inRange c
  rw [if_pos this]

/-- From the escaped form of a value followed by the closing character of its
form, the decoder reads the value and stops: behind the quote of an attribute
or in front of the `<` that ends an element's text. -/
theorem decodeText_escapeText (k : FieldForm) (w rest : List Char) :
    decodeText k.quote (escapeText w ++ k.closing :: rest)
      = Except.ok (w.map sanitizeChar, k.leftover rest) := by
  have hq : k.quote = some (Char.ofNat 34) ∨ k.quote = none := by
    cases k
    · exact Or.inl rfl
    · exact Or.inr rfl
  obtain ⟨b0, b1, h⟩ := decodeAux_escapeText k.quote hq w (Char.ofNat 0) (Char.ofNat 0) []
    (k.closing :: rest)
  unfold decodeText
  rw [h, List.append_nil]
  cases k
  · show decodeAux (some (Char.ofNat 34)) _ _ (Char.ofNat 34 :: rest) = _
    rw [decodeAux]
    simp
    exact finishText_sanitized w _ rest rfl
  · show decodeAux none _ _ ('<' :: rest) = _
    rw [decodeAux]
    simp
    exact finishText_sanitized w _ ('<' :: rest) rfl

/-- What the parser reads back for a field: its value without the newline
characters (with U+FFFD for the characters outside the XML character
range). -/
theorem readBack_eq (k : FieldForm) (v suf : List Char) :
    readBack k v suf
      = Except.ok ((dropNewlines v).map sanitizeChar, k.leftover (stripNewlineEscapes suf)) := by
  have hc : k.closing ≠ '&' := by cases k <;> decide
  unfold readBack
  rw [strip_escapeText_append, strip_cons_of_ne _ _ hc, decodeText_escapeText]

theorem map_sanitizeChar_of_inRange (v : List Char)
    (hv : ∀ c ∈ v, isInCharacterRange c = true) : v.map sanitizeChar = v := by
  induction v with
  | nil => rfl
  | cons c cs ih =>
    rw [List.map_cons, sanitizeChar_of_inRange c (hv c (List.mem_cons_self _ _)),
      ih (fun d hd => hv d (List.mem_cons_of_mem _ hd))]

theorem dropNewlines_of_not_mem (v : List Char) (h : Char.ofNat 10 ∉ v) :
    dropNewlines v = v := by
  unfold dropNewlines
  rw [List.filter_eq_self]
  intro c hc
  have : c ≠ Char.ofNat 10 := fun he => h (he ▸ hc)
  simpa using this

theorem dropNewlines_ne_of_mem (v : List Char) (h : Char.ofNat 10 ∈ v) :
    dropNewlines v ≠ v := by
  intro he
  have hm : Char.ofNat 10 ∈ dropNewlines v := by rw [he]; exact h
  unfold dropNewlines at hm
  have := (List.mem_filter.mp hm).2
  simp at this

theorem mem_dropNewlines (v : List Char) (c : Char) (h : c ∈ dropNewlines v) : c ∈ v := by
  unfold dropNewlines at h
  exact (List.mem_filter.mp h).1

/-- The post-processing of a marshalled text in which a field is written:
the field's text becomes the escaped form of the value without its newline
characters, and the text in front and behind is processed on its own. -/
theorem strip_marshalledWith (k : FieldForm) (pre v suf : List Char) :
    stripNewlineEscapes (marshalledWith k pre v suf)
      = marshalledWith k (stripNewlineEscapes pre) (dropNewlines v)
          (stripNewlineEscapes suf) := by
  have ho : k.opening ≠ '#' ∧ k.opening ≠ 'x' ∧ k.opening ≠ 'A' ∧ k.opening ≠ ';' := by
    cases k <;> decide
  have ho' : k.opening ≠ '&' := by cases k <;> decide
  have hc : k.closing ≠ '&' := by cases k <;> decide
  unfold marshalledWith
  rw [strip_append_cons _ _ ho pre.length pre (le_refl _), strip_cons_of_ne _ _ ho',
    strip_escapeText_append, strip_cons_of_ne _ _ hc]

/-- The text of an element that is written with child elements is followed,
in front of the first child, by the newline and the indentation
`xml.MarshalIndent` writes; the decoder reads them as part of the text.  (This
is why the `,chardata` field of such an element is not among the forms of
`FieldForm`.) -/
theorem decodeText_reads_indentation :
    decodeText none ("hello".data ++ Char.ofNat 10 :: "    <DOCUMENT>".data)
      = Except.ok ("hello".data ++ Char.ofNat 10 :: "    ".data, "<DOCUMENT>".data) := by
  rfl

/-- C9, refuted on a field value with a newline: the valid input `a&#10;b`
is read as the value `a`, newline, `b`; the marshaller writes that value as
`a&#xA;b`; the post-processing of `WriteScribusFile` turns this into `ab`;
the parser reads `ab`, which is not the value the document held.  Without the
post-processing the value would have come back. -/
theorem C9_newline_field_not_restored :
    decodeText (some (Char.ofNat 34)) ['a', '&', '#', '1', '0', ';', 'b', Char.ofNat 34]
      = Except.ok (['a', Char.ofNat 10, 'b'], []) ∧
    escapeText ['a', Char.ofNat 10, 'b'] = ['a', '&', '#', 'x', 'A', ';', 'b'] ∧
    stripNewlineEscapes (escapeText ['a', Char.ofNat 10, 'b']) = ['a', 'b'] ∧
    readBack FieldForm.attribute ['a', Char.ofNat 10, 'b'] [] = Except.ok (['a', 'b'], []) ∧
    readBack FieldForm.attribute ['a', Char.ofNat 10, 'b'] []
      ≠ Except.ok (['a', Char.ofNat 10, 'b'], []) ∧
    decodeText (some (Char.ofNat 34)) (escapeText ['a', Char.ofNat 10, 'b'] ++ [Char.ofNat 34])
      = Except.ok (['a', Char.ofNat 10, 'b'], []) := by
  refine ⟨rfl, rfl, rfl, rfl, ?_, rfl⟩
  intro h
  have h' : readBack FieldForm.attribute ['a', Char.ofNat 10, 'b'] []
      = Except.ok (['a', 'b'], []) := rfl
  rw [h'] at h
  have := congrArg (fun r => match r with
    | Except.ok p => p.1.length
    | Except.error _ => 0) h
  exact absurd this (by decide)

/-- C9 (amended): for every document whose marshalled text holds a field
with value `v`, written as a quoted attribute or as the whole text of an
element, where `v` has only characters of the XML character range:
`WriteScribusFile` writes the XML header and the marshalled text in which
this field's text is the escaped form of `v` without its newline characters;
`NewScribusDocumentFromFile`, loading that file, hands exactly these bytes to
the parser; and the parser's text routine reads the field's text as `v`
without its newline characters.  So the field comes back equal when `v` has
no newline, and differs (every newline is lost) when it has one. -/
theorem C9_field_round_trip (s : Saver) (l : Loader) (D : DocumentValue) (path : String)
    (xmlFile : Nat) (k : FieldForm) (pre v suf : List Char)
    (hm : s.marshalIndent D = Except.ok (marshalledWith k pre v suf))
    (ho : l.osOpen path = Except.ok xmlFile)
    (hr : (l.readAll xmlFile).1 = WriteScribusFile.bytes (marshalledWith k pre v suf))
    (hv : ∀ c ∈ v, isInCharacterRange c = true) :
    (WriteScribusFile s D path).2
      = [Call.marshalIndent,
         Call.writeFile path
           (xmlHeader ++ marshalledWith k (stripNewlineEscapes pre) (dropNewlines v)
             (stripNewlineEscapes suf)) 0o644] ∧
    (NewScribusDocumentFromFile l path).2
      = [Call.osOpen path, Call.readAll xmlFile,
         Call.unmarshal
           (xmlHeader ++ marshalledWith k (stripNewlineEscapes pre) (dropNewlines v)
             (stripNewlineEscapes suf)),
         Call.close xmlFile] ∧
    decodeText k.quote (escapeText (dropNewlines v) ++ k.closing :: stripNewlineEscapes suf)
      = Except.ok (dropNewlines v, k.leftover (stripNewlineEscapes suf)) ∧
    (Char.ofNat 10 ∉ v → dropNewlines v = v) ∧
    (Char.ofNat 10 ∈ v → dropNewlines v ≠ v) := by
  have hb : WriteScribusFile.bytes (marshalledWith k pre v suf)
      = xmlHeader ++ marshalledWith k (stripNewlineEscapes pre) (dropNewlines v)
          (stripNewlineEscapes suf) := by
    unfold WriteScribusFile.bytes
    rw [strip_marshalledWith]
  refine ⟨?_, ?_, ?_, dropNewlines_of_not_mem v, dropNewlines_ne_of_mem v⟩
  · unfold WriteScribusFile
    rw [hm]
    simp only [hb]
  · unfold NewScribusDocumentFromFile
    rw [ho]
    simp only [hr, hb]
  · rw [decodeText_escapeText,
      map_sanitizeChar_of_inRange _ (fun c hc => hv c (mem_dropNewlines v c hc))]

/-- C9 (amended) on the `CH` attribute with value `a`, newline, `b<c`: the
file holds `CH="ab&lt;c"`, and the value read back is `ab<c`. -/
theorem C9_field_round_trip_witness :
    (WriteScribusFile newlineSaver default "out.sla").2
      = [Call.marshalIndent,
         Call.writeFile "out.sla"
           (xmlHeader ++ marshalledWith FieldForm.attribute
             (stripNewlineEscapes "<ITEXT CH=".data)
             (dropNewlines ['a', Char.ofNat 10, 'b', '<', 'c'])
             (stripNewlineEscapes "></ITEXT>".data)) 0o644] ∧
    (NewScribusDocumentFromFile newlineLoader "out.sla").2
      = [Call.osOpen "out.sla", Call.readAll 7,
         Call.unmarshal
           (xmlHeader ++ marshalledWith FieldForm.attribute
             (stripNewlineEscapes "<ITEXT CH=".data)
             (dropNewlines ['a', Char.ofNat 10, 'b', '<', 'c'])
             (stripNewlineEscapes "></ITEXT>".data)),
         Call.close 7] ∧
    decodeText FieldForm.attribute.quote
        (escapeText (dropNewlines ['a', Char.ofNat 10, 'b', '<', 'c'])
          ++ FieldForm.attribute.closing :: stripNewlineEscapes "></ITEXT>".data)
      = Except.ok (dropNewlines ['a', Char.ofNat 10, 'b', '<', 'c'],
          FieldForm.attribute.leftover (stripNewlineEscapes "></ITEXT>".data)) ∧
    (Char.ofNat 10 ∉ ['a', Char.ofNat 10, 'b', '<', 'c'] →
      dropNewlines ['a', Char.ofNat 10, 'b', '<', 'c'] = ['a', Char.ofNat 10, 'b', '<', 'c']) ∧
    (Char.ofNat 10 ∈ ['a', Char.ofNat 10, 'b', '<', 'c'] →
      dropNewlines ['a', Char.ofNat 10, 'b', '<', 'c']
        ≠ ['a', Char.ofNat 10, 'b', '<', 'c']) :=
  C9_field_round_trip newlineSaver newlineLoader default "out.sla" 7 FieldForm.attribute
    "<ITEXT CH=".data ['a', Char.ofNat 10, 'b', '<', 'c'] "></ITEXT>".data rfl rfl rfl
    (by decide)

/-- C10, refuted on the marshalled text `a&#xA;b`: the post-processing gives
`ab`, which contains no newline character and is not `a`, newline, `b`. -/
theorem C10_newline_escape_not_a_newline :
    stripNewlineEscapes ['a', '&', '#', 'x', 'A', ';', 'b'] = ['a', 'b'] ∧
    Char.ofNat 10 ∉ stripNewlineEscapes ['a', '&', '#', 'x', 'A', ';', 'b'] ∧
    stripNewlineEscapes ['a', '&', '#', 'x', 'A', ';', 'b'] ≠ ['a', Char.ofNat 10, 'b'] := by
  decide

/-- C10 (amended): for every marshalled text, the post-processing deletes an
occurrence of the newline escape `&#xA;` (the text before it and the text
after it are processed on their own and joined with nothing in between), and
it never produces a newline character: the output has exactly the newline
characters the marshalled text had.  A newline of the text content, which
the marshaller wrote as the escape, is therefore absent from the output. -/
theorem C10_newline_escape_deleted (u v t : List Char) :
    stripNewlineEscapes (u ++ escNL ++ v) = stripNewlineEscapes u ++ stripNewlineEscapes v ∧
    WriteScribusFile.bytes (u ++ escNL ++ v)
      = xmlHeader ++ (stripNewlineEscapes u ++ stripNewlineEscapes v) ∧
    (stripNewlineEscapes t).count (Char.ofNat 10) = t.count (Char.ofNat 10) := by
  have hq : '&' ≠ '#' ∧ '&' ≠ 'x' ∧ '&' ≠ 'A' ∧ '&' ≠ ';' := by decide
  have h1 : stripNewlineEscapes (u ++ escNL ++ v)
      = stripNewlineEscapes u ++ stripNewlineEscapes v := by
    have : u ++ escNL ++ v = u ++ '&' :: ('#' :: 'x' :: 'A' :: ';' :: v) := by
      simp [escNL]
    rw [this, strip_append_cons _ _ hq u.length u (le_refl _)]
    congr 1
    exact strip_esc v
  refine ⟨h1, ?_, count_newline_strip t.length t (le_refl _)⟩
  unfold WriteScribusFile.bytes
  rw [h1]

/-! ## Saving and loading -/

/-- C11: for every document for which marshalling succeeds, the bytes
`WriteScribusFile` writes are `xml.Header` followed by the post-processed
marshalled text; they are written with one `ioutil.WriteFile` call, whose
result is the result of the method. -/
theorem C11_written_bytes_start_with_header (env : Saver) (doc : DocumentValue)
    (path : String) (xmlstring : List Char)
    (hm : env.marshalIndent doc = Except.ok xmlstring) :
    WriteScribusFile env doc path
      = (env.writeFile path (xmlHeader ++ stripNewlineEscapes xmlstring) 0o644,
         [Call.marshalIndent,
          Call.writeFile path (xmlHeader ++ stripNewlineEscapes xmlstring) 0o644]) ∧
    xmlHeader <+: xmlHeader ++ stripNewlineEscapes xmlstring := by
  refine ⟨?_, List.prefix_append _ _⟩
  unfold WriteScribusFile
  rw [hm]
  rfl

/-- C11 on the example marshaller: the written bytes start with the header. -/
theorem C11_written_bytes_start_with_header_witness :
    WriteScribusFile exampleSaver default "out.sla"
      = (exampleSaver.writeFile "out.sla"
          (xmlHeader ++ stripNewlineEscapes "<SCRIBUSUTF8NEW></SCRIBUSUTF8NEW>".data) 0o644,
         [Call.marshalIndent,
          Call.writeFile "out.sla"
            (xmlHeader ++ stripNewlineEscapes "<SCRIBUSUTF8NEW></SCRIBUSUTF8NEW>".data)
            0o644]) ∧
    xmlHeader <+: xmlHeader ++ stripNewlineEscapes "<SCRIBUSUTF8NEW></SCRIBUSUTF8NEW>".data :=
  C11_written_bytes_start_with_header exampleSaver default "out.sla"
    "<SCRIBUSUTF8NEW></SCRIBUSUTF8NEW>".data rfl

/-- C12: for every path at which opening the file fails,
`NewScribusDocumentFromFile` returns that open error together with the
zero-valued document, and the open is the only call it makes: nothing is
read and nothing is parsed. -/
theorem C12_open_failure (env : Loader) (path err : String)
    (ho : env.osOpen path = Except.error err) :
    NewScribusDocumentFromFile env path = ((default, some err), [Call.osOpen path]) := by
  unfold NewScribusDocumentFromFile
  rw [ho]

/-- C12 on a path the example file system does not have. -/
theorem C12_open_failure_witness :
    NewScribusDocumentFromFile exampleLoader "nope.sla"
      = ((default, some "open nope.sla: no such file or directory"),
         [Call.osOpen "nope.sla"]) :=
  C12_open_failure exampleLoader "nope.sla" "open nope.sla: no such file or directory" rfl

/-- The error `ioutil.ReadAll` returns has no influence on what
`NewScribusDocumentFromFile` returns. -/
theorem NewScribusDocumentFromFile_ignores_read_error (env : Loader) (path : String) :
    NewScribusDocumentFromFile env path
      = NewScribusDocumentFromFile
          { env with readAll := fun f => ((env.readAll f).1, none) } path := by
  unfold NewScribusDocumentFromFile
  cases env.osOpen path <;> rfl

/-- C13, evaluated on a file whose read fails: `flaky.sla` opens, and
`ioutil.ReadAll` returns its whole content together with a read error.
`NewScribusDocumentFromFile` goes on to parse the content and returns the
parsed document with a `nil` error: the read failure reaches the caller
neither as an I/O error nor at all. -/
theorem C13_read_error_discarded :
    exampleLoader.osOpen "flaky.sla" = Except.ok 5 ∧
    exampleLoader.readAll 5 = (completeFile, some "read flaky.sla: input/output error") ∧
    (NewScribusDocumentFromFile exampleLoader "flaky.sla").1 = (versionOnly default, none) ∧
    (NewScribusDocumentFromFile exampleLoader "flaky.sla").2
      = [Call.osOpen "flaky.sla", Call.readAll 5, Call.unmarshal completeFile,
         Call.close 5] :=
  ⟨rfl, rfl, rfl, rfl⟩

/-- C14, refuted on a truncated file: `cut.sla` holds the root start tag
only.  `xml.Unmarshal` assigns the element name and the `Version` attribute
and then fails; `NewScribusDocumentFromFile` returns the error together with
the document as it stands, whose `Version` is `1.5.5`: it is not the
zero-valued document. -/
theorem C14_partial_document_returned :
    (NewScribusDocumentFromFile exampleLoader "cut.sla").1
      = (versionOnly default, some "XML syntax error on line 1: unexpected EOF") ∧
    (NewScribusDocumentFromFile exampleLoader "cut.sla").1.1.Version = "1.5.5" ∧
    (default : DocumentValue).Version = "" ∧
    (NewScribusDocumentFromFile exampleLoader "cut.sla").1.1 ≠ default :=
  ⟨rfl, rfl, rfl, fun h => absurd (congrArg ScribusDocument.Version h) (by decide)⟩

/-- C14 (amended): whenever unmarshalling the input bytes fails,
`NewScribusDocumentFromFile` returns the error together with the document
variable as `xml.Unmarshal` left it (zero-valued exactly when the call
assigned nothing before it failed). -/
theorem C14_unmarshal_failure (env : Loader) (path : String) (xmlFile : Nat)
    (d : DocumentValue) (err : String)
    (ho : env.osOpen path = Except.ok xmlFile)
    (hu : env.unmarshal (env.readAll xmlFile).1 default = (d, some err)) :
    (NewScribusDocumentFromFile env path).1 = (d, some err) := by
  unfold NewScribusDocumentFromFile
  rw [ho]
  simp only [hu]

/-- C14 (amended) on the truncated file of the example file system. -/
theorem C14_unmarshal_failure_witness :
    (NewScribusDocumentFromFile exampleLoader "cut.sla").1
      = (versionOnly default, some "XML syntax error on line 1: unexpected EOF") :=
  C14_unmarshal_failure exampleLoader "cut.sla" 4 (versionOnly default)
    "XML syntax error on line 1: unexpected EOF" rfl rfl

/-! ## Index faults -/

theorem goIndex_eq_none_iff {α : Type} (s : List α) (i : Int) :
    goIndex s i = none ↔ (i < 0 ∨ (s.length : Int) ≤ i) := by
  by_cases h0 : 0 ≤ i
  · rw [goIndex_of_nonneg _ _ h0, List.getElem?_eq_none_iff]
    omega
  · rw [goIndex_of_neg _ _ (by omega)]
    simp
    omega

theorem goIndex_eq_some_range {α : Type} (s : List α) (i : Int) (x : α)
    (h : goIndex s i = some x) : 0 ≤ i ∧ i < s.length := by
  by_contra hc
  have : goIndex s i = none := (goIndex_eq_none_iff s i).mpr (by omega)
  rw [this] at h
  cases h

theorem DuplicatePageObject_of_none (st : State) (i : Int)
    (h : goIndex st.pageObjects i = none) : DuplicatePageObject st i = Outcome.fault := by
  unfold DuplicatePageObject
  simp only [h]

theorem MovePageObject_of_none (st : State) (i x y : Int)
    (h : goIndex st.pageObjects i = none) : MovePageObject st i x y = Outcome.fault := by
  unfold MovePageObject
  simp only [h]

theorem ChangePictureOfPageObject_of_none (st : State) (i : Int) (path : String)
    (h : goIndex st.pageObjects i = none) :
    ChangePictureOfPageObject st i path = Outcome.fault := by
  unfold ChangePictureOfPageObject
  simp only [h]

theorem ChangeTextOfPageObject_of_none (st : State) (i : Int) (text : String)
    (h : goIndex st.pageObjects i = none) :
    ChangeTextOfPageObject st i text = Outcome.fault := by
  unfold ChangeTextOfPageObject
  simp only [h]

/-- On an object whose `PTYPE` is not `"1"` the method returns the
type-mismatch error and the state it was given, whatever the object's runs
are. -/
theorem ChangeTextOfPageObject_mismatch (st : State) (i : Int) (text : String)
    (p : PAGEOBJECT Slice) (hp : goIndex st.pageObjects i = some p) (ht : p.PTYPE ≠ "1") :
    ChangeTextOfPageObject st i text = Outcome.ret
      (st, some "Is not a text frame (assuming that a text frame is PTYPE 1)") := by
  unfold ChangeTextOfPageObject
  simp [hp, ht]

/-- On a text frame without runs the method panics at `ITEXT[0]`. -/
theorem ChangeTextOfPageObject_no_runs (st : State) (i : Int) (text : String)
    (p : PAGEOBJECT Slice) (hp : goIndex st.pageObjects i = some p) (ht : p.PTYPE = "1")
    (hlen : p.StoryText.ITEXT.len = 0) :
    ChangeTextOfPageObject st i text = Outcome.fault := by
  unfold ChangeTextOfPageObject
  simp [hp, ht, hlen]

/-- On a text frame with a run the method writes the first cell and returns
`nil`. -/
theorem ChangeTextOfPageObject_write (st : State) (i : Int) (text : String)
    (p : PAGEOBJECT Slice) (hp : goIndex st.pageObjects i = some p) (ht : p.PTYPE = "1")
    (hlen : 0 < p.StoryText.ITEXT.len) :
    ChangeTextOfPageObject st i text = Outcome.ret
      (⟨st.doc, Function.update st.heap p.StoryText.ITEXT.base
          ({ st.heap p.StoryText.ITEXT.base with CH := text })⟩, none) := by
  unfold ChangeTextOfPageObject
  simp [hp, ht, hlen]

/-- C16: for every document and every index `i` with `i < 0` or
`i ≥ len(PAGEOBJECT)` (so for every index when there is no page object),
each of the four operations ends in an index fault and does not return; and
`DuplicatePageObject`, `MovePageObject` (and `ChangePictureOfPageObject`)
fault for no other index.  `ChangeTextOfPageObject` faults for exactly these
indices and for text frames without runs. -/
theorem C16_index_fault (st : State) (i x y : Int) (text path : String) :
    (DuplicatePageObject st i = Outcome.fault
      ↔ (i < 0 ∨ (st.pageObjects.length : Int) ≤ i)) ∧
    (MovePageObject st i x y = Outcome.fault
      ↔ (i < 0 ∨ (st.pageObjects.length : Int) ≤ i)) ∧
    (ChangePictureOfPageObject st i path = Outcome.fault
      ↔ (i < 0 ∨ (st.pageObjects.length : Int) ≤ i)) ∧
    (ChangeTextOfPageObject st i text = Outcome.fault
      ↔ ((i < 0 ∨ (st.pageObjects.length : Int) ≤ i) ∨
          ∃ p, goIndex st.pageObjects i = some p ∧ p.PTYPE = "1" ∧
            p.StoryText.ITEXT.len = 0)) := by
  by_cases hr : i < 0 ∨ (st.pageObjects.length : Int) ≤ i
  · have hn := (goIndex_eq_none_iff st.pageObjects i).mpr hr
    simp only [hr, iff_true, true_or]
    exact ⟨DuplicatePageObject_of_none st i hn, MovePageObject_of_none st i x y hn,
      ChangePictureOfPageObject_of_none st i path hn,
      ChangeTextOfPageObject_of_none st i text hn⟩
  · have h0 : 0 ≤ i := by omega
    have hi : i < st.pageObjects.length := by omega
    obtain ⟨p, hp, -⟩ := goIndex_eq_some st.pageObjects i h0 hi
    simp only [hr, iff_false, false_or]
    refine ⟨?_, ?_, ?_, ?_⟩
    · rw [DuplicatePageObject_eq st i h0 hi]
      exact fun h => Outcome.noConfusion h
    · rw [MovePageObject_eq st i x y p hp]
      exact fun h => Outcome.noConfusion h
    · unfold ChangePictureOfPageObject
      simp only [hp]
      split <;> exact fun h => Outcome.noConfusion h
    · constructor
      · intro hf
        refine ⟨p, hp, ?_⟩
        by_cases ht : p.PTYPE = "1"
        · refine ⟨ht, ?_⟩
          by_contra hl
          rw [ChangeTextOfPageObject_write st i text p hp ht (by omega)] at hf
          exact Outcome.noConfusion hf
        · rw [ChangeTextOfPageObject_mismatch st i text p hp ht] at hf
          exact Outcome.noConfusion hf
      · rintro ⟨q, hq, ht, hl⟩
        exact ChangeTextOfPageObject_no_runs st i text q hq ht hl

/-- C17: for every document and every valid index `i` whose object has
`PTYPE` `"1"`, `ChangeTextOfPageObject(i, text)` ends in an index fault when
the object's `ITEXT` sequence is empty, and only then: with at least one run
it returns `nil`. -/
theorem C17_text_frame_without_runs (st : State) (i : Int) (text : String)
    (p : PAGEOBJECT Slice) (hp : goIndex st.pageObjects i = some p) (ht : p.PTYPE = "1") :
    (ChangeTextOfPageObject st i text = Outcome.fault ↔ p.StoryText.ITEXT.len = 0) ∧
    (0 < p.StoryText.ITEXT.len → ∃ st', ChangeTextOfPageObject st i text
      = Outcome.ret (st', none)) := by
  refine ⟨⟨?_, ChangeTextOfPageObject_no_runs st i text p hp ht⟩, ?_⟩
  · intro hf
    by_contra hl
    rw [ChangeTextOfPageObject_write st i text p hp ht (by omega)] at hf
    exact Outcome.noConfusion hf
  · intro hl
    exact ⟨_, ChangeTextOfPageObject_write st i text p hp ht hl⟩

/-- C17 on the text frame without runs of `emptyFrameState` (it faults) and,
for the second part, on the text frame of `exampleState` (it returns). -/
theorem C17_text_frame_without_runs_witness :
    ChangeTextOfPageObject emptyFrameState 0 "World" = Outcome.fault ∧
    ∃ st', ChangeTextOfPageObject exampleState 0 "World" = Outcome.ret (st', none) :=
  ⟨(C17_text_frame_without_runs emptyFrameState 0 "World" (textFrame "10" "20" ⟨0, 0, 0⟩)
      (by decide) (by decide)).1.mpr (by decide),
   (C17_text_frame_without_runs exampleState 0 "World" (textFrame "10" "20" ⟨0, 2, 2⟩)
      (by decide) (by decide)).2 (by decide)⟩

/-- C19: in `ChangeTextOfPageObject` the type check comes before the first
text run is touched: for every valid index `i` whose object's `PTYPE` is not
`"1"` the call returns the type-mismatch error (it does not fault), also
when the object has no `ITEXT` run; the check compares strings exactly, so
the `PTYPE` values `"01"`, `" 1"` and `""` are rejected. -/
theorem C19_type_check_first (st : State) (i : Int) (text : String)
    (p : PAGEOBJECT Slice) (hp : goIndex st.pageObjects i = some p) :
    (p.PTYPE ≠ "1" → ChangeTextOfPageObject st i text = Outcome.ret
      (st, some "Is not a text frame (assuming that a text frame is PTYPE 1)")) ∧
    (p.PTYPE = "01" ∨ p.PTYPE = " 1" ∨ p.PTYPE = "" →
      ChangeTextOfPageObject st i text = Outcome.ret
        (st, some "Is not a text frame (assuming that a text frame is PTYPE 1)")) := by
  refine ⟨ChangeTextOfPageObject_mismatch st i text p hp, ?_⟩
  intro h
  apply ChangeTextOfPageObject_mismatch st i text p hp
  rcases h with h | h | h <;> rw [h] <;> decide

/-- C19 on the object of `emptyFrameState` with `PTYPE` `"01"` and no runs. -/
theorem C19_type_check_first_witness :
    (goIndex emptyFrameState.pageObjects 1).map (fun p => (p.PTYPE, p.StoryText.ITEXT.len))
      = some ("01", 0) ∧
    ChangeTextOfPageObject emptyFrameState 1 "World" = Outcome.ret
      (emptyFrameState, some "Is not a text frame (assuming that a text frame is PTYPE 1)") :=
  ⟨by decide,
   (C19_type_check_first emptyFrameState 1 "World"
      ({ textFrame "30" "40" ⟨0, 0, 0⟩ with PTYPE := "01" }) (by decide)).2 (Or.inl rfl)⟩

/-! ## Identifiers, links and the document-level fields -/

theorem objects_map_links (st : State) :
    st.objects.map PAGEOBJECT.links = st.pageObjects.map PAGEOBJECT.links := by
  unfold State.objects
  rw [List.map_map]
  rfl

theorem map_set_of_eq {α β : Type} (f : α → β) (s : List α) (n : Nat) (x y : α)
    (hy : s[n]? = some y) (hf : f x = f y) : (s.set n x).map f = s.map f := by
  have hn : n < s.length := by
    rcases Nat.lt_or_ge n s.length with h | h
    · exact h
    · rw [List.getElem?_eq_none h] at hy; cases hy
  apply List.ext_getElem?
  intro k
  rw [List.getElem?_map, List.getElem?_map, List.getElem?_set]
  split
  · next hk =>
    subst hk
    rw [hy]
    simp [hf]
  · rfl

theorem value_setPageObjects (st : State) (s : List (PAGEOBJECT Slice)) :
    (st.setPageObjects s).value.withPageObjects st.value.DOCUMENT.PAGEOBJECT = st.value :=
  rfl

theorem value_heap (st : State) (h : Heap) :
    (State.value ⟨st.doc, h⟩).withPageObjects st.value.DOCUMENT.PAGEOBJECT = st.value :=
  rfl

/-- After `DuplicatePageObject(i)` and `ChangeTextOfPageObject(i+1, text)` on
a text frame with a run, the objects at `i` and at `i+1` are equal and the
first run of both reads `text`. -/
theorem DuplicatePageObject_then_ChangeText (st : State) (i : Int) (text : String)
    (p : PAGEOBJECT Slice) (hp : goIndex st.pageObjects i = some p) (ht : p.PTYPE = "1")
    (hlen : 0 < p.StoryText.ITEXT.len) :
    ∃ st1 st2 v, DuplicatePageObject st i = Outcome.ret (st1, none) ∧
      ChangeTextOfPageObject st1 (i + 1) text = Outcome.ret (st2, none) ∧
      goIndex st2.objects i = some v ∧ goIndex st2.objects (i + 1) = some v ∧
      firstCH v = some text := by
  obtain ⟨h0, hi⟩ := goIndex_eq_some_range _ _ _ hp
  have hraw : ∀ k : Int, goIndex (st.pageObjects.take (i.toNat + 1)
      ++ st.pageObjects.drop i.toNat) k
      = if k ≤ i then goIndex st.pageObjects k else goIndex st.pageObjects (k - 1) :=
    fun k => goIndex_take_drop _ _ _ h0 hi
  have hp1 : goIndex (st.setPageObjects (st.pageObjects.take (i.toNat + 1)
      ++ st.pageObjects.drop i.toNat)).pageObjects (i + 1) = some p := by
    rw [pageObjects_setPageObjects, hraw, if_neg (by omega)]
    simpa using hp
  refine ⟨_, _, p.value (Function.update st.heap p.StoryText.ITEXT.base
      ({ st.heap p.StoryText.ITEXT.base with CH := text })),
    DuplicatePageObject_eq st i h0 hi,
    ChangeTextOfPageObject_write _ (i + 1) text p hp1 ht hlen, ?_, ?_, ?_⟩
  · show goIndex (List.map _ (st.pageObjects.take (i.toNat + 1)
      ++ st.pageObjects.drop i.toNat)) i = _
    rw [goIndex_map, hraw, if_pos (le_refl _), hp]
    rfl
  · show goIndex (List.map _ (st.pageObjects.take (i.toNat + 1)
      ++ st.pageObjects.drop i.toNat)) (i + 1) = _
    rw [goIndex_map, hraw, if_neg (by omega)]
    simp only [add_sub_cancel_right, hp]
    rfl
  · show Option.map _ (Slice.runs _ p.StoryText.ITEXT).head? = _
    rw [runs_head _ _ hlen]
    simp

/-- C18, evaluated on the example document: after `DuplicatePageObject(0)`
and `ChangeTextOfPageObject(1, "World")` the first run of the object at
index 0, which read `Hello`, reads `World` as well: the copy at index 1
carries the slice header of the original, so the two objects hold their runs
in the same cells and the copy is not independent of the original. -/
theorem C18_copy_shares_runs :
    DuplicatePageObject exampleState 0 = Outcome.ret (duplicatedState, none) ∧
    (goIndex duplicatedState.pageObjects 0).map (fun p => p.StoryText.ITEXT)
      = (goIndex duplicatedState.pageObjects 1).map (fun p => p.StoryText.ITEXT) ∧
    ∃ st', ChangeTextOfPageObject duplicatedState 1 "World" = Outcome.ret (st', none) ∧
      (goIndex exampleState.objects 0).bind firstCH = some "Hello" ∧
      (goIndex st'.objects 0).bind firstCH = some "World" ∧
      (goIndex st'.objects 1).bind firstCH = some "World" :=
  ⟨rfl, by decide, _, rfl, by decide, by decide, by decide⟩

/-- C15: for each of the four mutation operations and every valid index,
every page object of the resulting sequence carries the `ItemID`,
`NEXTITEM`, `BACKITEM`, `OwnPage` and `LAYER` of the original object it came
from.  After `DuplicatePageObject` the objects up to `i` come from the same
index and those behind `i` from the index before, so the objects at `i` and
`i+1` share one `ItemID`; after the other three every object comes from its
own index.  (`ChangeTextOfPageObject` has a resulting sequence unless it
faults on a text frame without runs.) -/
theorem C15_identifiers_and_links_kept (st : State) (i x y : Int) (text path : String)
    (h0 : 0 ≤ i) (hi : i < st.pageObjects.length) :
    (∃ st' l, DuplicatePageObject st i = Outcome.ret (st', none) ∧
      (∀ k : Int, goIndex (st'.objects.map PAGEOBJECT.links) k
        = if k ≤ i then goIndex (st.objects.map PAGEOBJECT.links) k
          else goIndex (st.objects.map PAGEOBJECT.links) (k - 1)) ∧
      goIndex (st'.objects.map PAGEOBJECT.links) i = some l ∧
      goIndex (st'.objects.map PAGEOBJECT.links) (i + 1) = some l) ∧
    (∃ st', MovePageObject st i x y = Outcome.ret st' ∧
      st'.objects.map PAGEOBJECT.links = st.objects.map PAGEOBJECT.links) ∧
    ((∃ p, goIndex st.pageObjects i = some p ∧ p.PTYPE = "1" ∧
        p.StoryText.ITEXT.len = 0 ∧ ChangeTextOfPageObject st i text = Outcome.fault) ∨
      ∃ st' e, ChangeTextOfPageObject st i text = Outcome.ret (st', e) ∧
        st'.objects.map PAGEOBJECT.links = st.objects.map PAGEOBJECT.links) ∧
    (∃ st' e, ChangePictureOfPageObject st i path = Outcome.ret (st', e) ∧
      st'.objects.map PAGEOBJECT.links = st.objects.map PAGEOBJECT.links) := by
  obtain ⟨p, hp, hp'⟩ := goIndex_eq_some st.pageObjects i h0 hi
  have hi' : i < (st.objects.map PAGEOBJECT.links).length := by
    simpa [State.objects] using hi
  refine ⟨?_, ?_, ?_, ?_⟩
  · obtain ⟨st', hst, -, -, hobj⟩ := DuplicatePageObject_objects st i h0 hi
    have hk : ∀ k : Int, goIndex (st'.objects.map PAGEOBJECT.links) k
        = if k ≤ i then goIndex (st.objects.map PAGEOBJECT.links) k
          else goIndex (st.objects.map PAGEOBJECT.links) (k - 1) := by
      intro k
      rw [hobj, List.map_append, List.map_take, List.map_drop,
        goIndex_take_drop _ _ _ h0 hi']
    obtain ⟨l, hl, -⟩ := goIndex_eq_some (st.objects.map PAGEOBJECT.links) i h0 hi'
    refine ⟨st', l, hst, hk, ?_, ?_⟩
    · rw [hk, if_pos (le_refl _), hl]
    · rw [hk, if_neg (by omega)]
      simpa using hl
  · refine ⟨_, MovePageObject_eq st i x y p hp, ?_⟩
    rw [objects_map_links, objects_map_links, pageObjects_setPageObjects]
    exact map_set_of_eq _ _ _ _ p hp' rfl
  · by_cases ht : p.PTYPE = "1"
    · by_cases hl : p.StoryText.ITEXT.len = 0
      · exact Or.inl ⟨p, hp, ht, hl, ChangeTextOfPageObject_no_runs st i text p hp ht hl⟩
      · exact Or.inr ⟨_, _, ChangeTextOfPageObject_write st i text p hp ht (by omega),
          by rw [objects_map_links, objects_map_links]; rfl⟩
    · exact Or.inr ⟨_, _, ChangeTextOfPageObject_mismatch st i text p hp ht, rfl⟩
  · by_cases ht : p.PTYPE = "2"
    · refine ⟨_, _, ChangePictureOfPageObject_eq st i path p hp ht, ?_⟩
      rw [objects_map_links, objects_map_links, pageObjects_setPageObjects]
      exact map_set_of_eq _ _ _ _ p hp' rfl
    · refine ⟨st, "Is not a picture frame (assuming that a picture frame is PTYPE 2)",
        ?_, rfl⟩
      unfold ChangePictureOfPageObject
      simp [hp, ht]

/-- C20: each of the four mutation operations changes nothing outside the
page-object sequence: for every document and valid index, putting the old
page-object sequence back into the document an operation leaves behind gives
the document as it was before the call, so the version tag and every
document-level field of `DOCUMENT` other than `PAGEOBJECT` have their old
values, whether the operation succeeds or returns an error.
(`ChangeTextOfPageObject` leaves a document behind unless it faults on a
text frame without runs.) -/
theorem C20_document_level_fields_kept (st : State) (i x y : Int) (text path : String)
    (h0 : 0 ≤ i) (hi : i < st.pageObjects.length) :
    (∃ st', DuplicatePageObject st i = Outcome.ret (st', none) ∧
      st'.value.withPageObjects st.value.DOCUMENT.PAGEOBJECT = st.value) ∧
    (∃ st', MovePageObject st i x y = Outcome.ret st' ∧
      st'.value.withPageObjects st.value.DOCUMENT.PAGEOBJECT = st.value) ∧
    ((∃ p, goIndex st.pageObjects i = some p ∧ p.PTYPE = "1" ∧
        p.StoryText.ITEXT.len = 0 ∧ ChangeTextOfPageObject st i text = Outcome.fault) ∨
      ∃ st' e, ChangeTextOfPageObject st i text = Outcome.ret (st', e) ∧
        st'.value.withPageObjects st.value.DOCUMENT.PAGEOBJECT = st.value) ∧
    (∃ st' e, ChangePictureOfPageObject st i path = Outcome.ret (st', e) ∧
      st'.value.withPageObjects st.value.DOCUMENT.PAGEOBJECT = st.value) := by
  obtain ⟨p, hp, -⟩ := goIndex_eq_some st.pageObjects i h0 hi
  refine ⟨⟨_, DuplicatePageObject_eq st i h0 hi, value_setPageObjects st _⟩,
    ⟨_, MovePageObject_eq st i x y p hp, value_setPageObjects st _⟩, ?_, ?_⟩
  · by_cases ht : p.PTYPE = "1"
    · by_cases hl : p.StoryText.ITEXT.len = 0
      · exact Or.inl ⟨p, hp, ht, hl, ChangeTextOfPageObject_no_runs st i text p hp ht hl⟩
      · exact Or.inr ⟨_, _, ChangeTextOfPageObject_write st i text p hp ht (by omega),
          value_heap st _⟩
    · exact Or.inr ⟨_, _, ChangeTextOfPageObject_mismatch st i text p hp ht, rfl⟩
  · by_cases ht : p.PTYPE = "2"
    · exact ⟨_, _, ChangePictureOfPageObject_eq st i path p hp ht, value_setPageObjects st _⟩
    · refine ⟨st, "Is not a picture frame (assuming that a picture frame is PTYPE 2)",
        ?_, rfl⟩
      unfold ChangePictureOfPageObject
      simp [hp, ht]

/-- C15 on the example document at index 0. -/
theorem C15_identifiers_and_links_kept_witness :
    (∃ st' l, DuplicatePageObject exampleState 0 = Outcome.ret (st', none) ∧
      (∀ k : Int, goIndex (st'.objects.map PAGEOBJECT.links) k
        = if k ≤ 0 then goIndex (exampleState.objects.map PAGEOBJECT.links) k
          else goIndex (exampleState.objects.map PAGEOBJECT.links) (k - 1)) ∧
      goIndex (st'.objects.map PAGEOBJECT.links) 0 = some l ∧
      goIndex (st'.objects.map PAGEOBJECT.links) (0 + 1) = some l) ∧
    (∃ st', MovePageObject exampleState 0 1 2 = Outcome.ret st' ∧
      st'.objects.map PAGEOBJECT.links = exampleState.objects.map PAGEOBJECT.links) ∧
    ((∃ p, goIndex exampleState.pageObjects 0 = some p ∧ p.PTYPE = "1" ∧
        p.StoryText.ITEXT.len = 0 ∧
        ChangeTextOfPageObject exampleState 0 "World" = Outcome.fault) ∨
      ∃ st' e, ChangeTextOfPageObject exampleState 0 "World" = Outcome.ret (st', e) ∧
        st'.objects.map PAGEOBJECT.links = exampleState.objects.map PAGEOBJECT.links) ∧
    (∃ st' e, ChangePictureOfPageObject exampleState 0 "b.png" = Outcome.ret (st', e) ∧
      st'.objects.map PAGEOBJECT.links = exampleState.objects.map PAGEOBJECT.links) :=
  C15_identifiers_and_links_kept exampleState 0 1 2 "World" "b.png" (by decide) (by decide)

/-- C20 on the example document at index 0. -/
theorem C20_document_level_fields_kept_witness :
    (∃ st', DuplicatePageObject exampleState 0 = Outcome.ret (st', none) ∧
      st'.value.withPageObjects exampleState.value.DOCUMENT.PAGEOBJECT
        = exampleState.value) ∧
    (∃ st', MovePageObject exampleState 0 1 2 = Outcome.ret st' ∧
      st'.value.withPageObjects exampleState.value.DOCUMENT.PAGEOBJECT
        = exampleState.value) ∧
    ((∃ p, goIndex exampleState.pageObjects 0 = some p ∧ p.PTYPE = "1" ∧
        p.StoryText.ITEXT.len = 0 ∧
        ChangeTextOfPageObject exampleState 0 "World" = Outcome.fault) ∨
      ∃ st' e, ChangeTextOfPageObject exampleState 0 "World" = Outcome.ret (st', e) ∧
        st'.value.withPageObjects exampleState.value.DOCUMENT.PAGEOBJECT
          = exampleState.value) ∧
    (∃ st' e, ChangePictureOfPageObject exampleState 0 "b.png" = Outcome.ret (st', e) ∧
      st'.value.withPageObjects exampleState.value.DOCUMENT.PAGEOBJECT
        = exampleState.value) :=
  C20_document_level_fields_kept exampleState 0 1 2 "World" "b.png" (by decide) (by decide)

end Scribus
